import Mathlib

/-!
# Verification of the gVisor transport demultiplexer
  (pkg/tcpip/stack/transport_demuxer.go)

A shallow embedding of the transport demultiplexer: registration of
transport endpoints under (network protocol, transport protocol,
endpoint id, NIC), the binary-heap member container used for port-reuse
groups, the jenkins-hash endpoint selection, the four-tier wildcard
matching search, and the `deliverPacket` dispatch logic (UDP
multicast/broadcast fan-out, TCP non-unicast rejection, unicast
delivery), together with theorems about these definitions.

Go maps are modelled as association lists (position is irrelevant to
lookup); Go slices as lists; the `uint32` arithmetic of the hash is
modelled on `Nat` with explicit `% 2^32`; a `TransportEndpoint` is
identified by its stable `UniqueID` (a `Nat`), which the source itself
uses for ordering and which the spec designates as the identity key.
Mutation is modelled by explicit state passing: a stateful Go method
returns a pair of its result and the updated state. `rand.Uint32()`
(the per-group hash seed) is passed in as an explicit parameter.
Packet-buffer cloning (`pkt.Clone()`) is modelled by `pkt + 1`, so a
delivery carries the original buffer exactly when its `pkt` field
equals the packet value handed to the demuxer.
-/

set_option linter.unusedVariables false

namespace GvisorDemux

/-! ### Association lists (model of Go maps) -/

/-- Lookup in an association list (model of Go map indexing). -/
def alookup {α β : Type} [DecidableEq α] : List (α × β) → α → Option β
  | [], _ => none
  | p :: t, k => if p.1 = k then some p.2 else alookup t k

/-- Insert/replace in an association list (model of Go map assignment).
Replaces in place when the key is present, appends otherwise. -/
def ainsert {α β : Type} [DecidableEq α] : List (α × β) → α → β → List (α × β)
  | [], k, v => [(k, v)]
  | p :: t, k, v => if p.1 = k then (k, v) :: t else p :: ainsert t k v

/-- Remove a key from an association list (model of Go `delete`). -/
def aremove {α β : Type} [DecidableEq α] (l : List (α × β)) (k : α) : List (α × β) :=
  l.filter fun p => decide (p.1 ≠ k)

/-- Flattened map over a list. -/
def concatMap {α β : Type} (f : α → List β) : List α → List β
  | [] => []
  | a :: t => f a ++ concatMap f t

/-! ### Basic data model -/

/-- `tcpip.Address`: a byte string. The empty list is the wildcard
address (Go `""`). -/
abbrev Address := List Nat

/-- `tcpip.NICID`; `0` is the wildcard "any interface". -/
abbrev NICID := Nat

/-- `stack.TransportEndpointID` (field order as in the Go struct). -/
structure TransportEndpointID where
  localPort : Nat
  localAddress : Address
  remotePort : Nat
  remoteAddress : Address
deriving DecidableEq

/-- `protocolIDs`: a (network protocol, transport protocol) pair. -/
structure protocolIDs where
  network : Nat
  transProto : Nat
deriving DecidableEq

/-- `*tcpip.Error` values returned by the registration paths. -/
inductive TcpipError where
  | PortInUse
  | UnknownProtocol
  | NotSupported
deriving DecidableEq

/-- Modelled from the spec: `header.UDPProtocolNumber` — the header
package is not under src/; the spec calls this the "UDP-like" transport
protocol. The IANA protocol number 17 is used; only its distinctness
from the TCP number matters. -/
def UDPProtocolNumber : Nat := 17

/-- Modelled from the spec: `header.TCPProtocolNumber` — the header
package is not under src/; the spec calls this the "TCP-like" transport
protocol. The IANA protocol number 6 is used. -/
def TCPProtocolNumber : Nat := 6

/-- Modelled from the spec: `header.IPv4Broadcast` (`255.255.255.255`),
the broadcast address; the header package is not under src/. -/
def IPv4Broadcast : Address := [255, 255, 255, 255]

/-- Modelled from the spec: `header.IPv4Any` (`0.0.0.0`), the IPv4
any-address; the header package is not under src/. -/
def IPv4Any : Address := [0, 0, 0, 0]

/-- Modelled from the spec: `header.IPv6Any` (`::`), the IPv6
any-address; the header package is not under src/. -/
def IPv6Any : Address := List.replicate 16 0

/-- Modelled from the spec: `header.IsV4MulticastAddress` — a 4-byte
address whose leading nibble is `0xe` (224.0.0.0/4); the header package
is not under src/. -/
def IsV4MulticastAddress (addr : Address) : Bool :=
  addr.length == 4 && Nat.land (addr.headD 0) 0xf0 == 0xe0

/-- Modelled from the spec: `header.IsV6MulticastAddress` — a 16-byte
address whose leading byte is `0xff`; the header package is not under
src/. -/
def IsV6MulticastAddress (addr : Address) : Bool :=
  addr.length == 16 && addr.headD 0 == 0xff

/-- `isMulticastOrBroadcast` from transport_demuxer.go. -/
def isMulticastOrBroadcast (addr : Address) : Bool :=
  addr == IPv4Broadcast || IsV4MulticastAddress addr || IsV6MulticastAddress addr

/-- `isUnicast` from transport_demuxer.go. -/
def isUnicast (addr : Address) : Bool :=
  addr != IPv4Any && addr != IPv6Any && !isMulticastOrBroadcast addr

/-! ### The jenkins hash and endpoint selection -/

/-- Modelled from the spec: one byte step of the incremental 32-bit
non-cryptographic mixing hash (`pkg/tcpip/hash/jenkins`, jenkins
one-at-a-time, whose source is not under src/). -/
def jenkinsMix (h b : Nat) : Nat :=
  let h1 := (h + b) % 2 ^ 32
  let h2 := (h1 + h1 * 2 ^ 10) % 2 ^ 32
  Nat.xor h2 (h2 / 2 ^ 6)

/-- Modelled from the spec: `Write` of the incremental mixing hash
(`pkg/tcpip/hash/jenkins`, not under src/): mix each byte in turn into
the running 32-bit state. -/
def jenkinsWrite (h : Nat) (data : List Nat) : Nat :=
  data.foldl jenkinsMix (h % 2 ^ 32)

/-- Modelled from the spec: the finalisation step (`Sum32`) of the
incremental mixing hash (`pkg/tcpip/hash/jenkins`, not under src/). -/
def jenkinsSum32 (h : Nat) : Nat :=
  let h1 := (h + h * 2 ^ 3) % 2 ^ 32
  let h2 := Nat.xor h1 (h1 / 2 ^ 11)
  (h2 + h2 * 2 ^ 15) % 2 ^ 32

/-- `reciprocalScale` from transport_demuxer.go: scales a 32-bit value
into `[0, n)` by a multiply-high-bits reduction
(`uint32((uint64(val) * uint64(n)) >> 32)`). -/
def reciprocalScale (val n : Nat) : Nat :=
  val % 2 ^ 32 * (n % 2 ^ 32) / 2 ^ 32

/-- List indexing with the Go zero value as default (used to model Go
slice indexing, which the source only performs in bounds). -/
def lget (l : List Nat) (i : Nat) : Nat := l.getD i 0

/-- The byte payload hashed first by `selectEndpoint`: both ports,
little-endian, local before remote. -/
def portPayload (id : TransportEndpointID) : List Nat :=
  [id.localPort % 256, id.localPort / 256 % 256,
   id.remotePort % 256, id.remotePort / 256 % 256]

/-! ### The endpoint heap (`transportEndpointHeap` + container/heap) -/

/-- Swap two positions of a list (`heap.Interface.Swap`). -/
def lswap (l : List Nat) (i j : Nat) : List Nat :=
  (l.set i (lget l j)).set j (lget l i)

/-- `container/heap.up` specialised to `transportEndpointHeap.Less`
(strict `<` on `UniqueID`). Sifts the element at the given index up. -/
def heapUp : List Nat → Nat → List Nat
  | l, 0 => l
  | l, j + 1 =>
    if lget l (j + 1) < lget l (j / 2) then heapUp (lswap l (j + 1) (j / 2)) (j / 2)
    else l
termination_by l j => j
decreasing_by omega

/-- `container/heap.Push`: append, then sift up from the last index. -/
def heapPush (l : List Nat) (x : Nat) : List Nat :=
  heapUp (l ++ [x]) l.length

/-- `container/heap.down` specialised to `transportEndpointHeap`:
sifts index `i` down within the prefix of length `n`, returning the
updated list and the final index (Go's `down` reports `i > i0`, i.e.
whether the element moved). -/
def heapDownGo (l : List Nat) (i n : Nat) : List Nat × Nat :=
  if h1 : 2 * i + 1 < n then
    if 2 * i + 2 < n ∧ lget l (2 * i + 2) < lget l (2 * i + 1) then
      if lget l (2 * i + 2) < lget l i then heapDownGo (lswap l i (2 * i + 2)) (2 * i + 2) n
      else (l, i)
    else
      if lget l (2 * i + 1) < lget l i then heapDownGo (lswap l i (2 * i + 1)) (2 * i + 1) n
      else (l, i)
  else (l, i)
termination_by n - i
decreasing_by all_goals omega

/-- `container/heap.Remove`: swap the element at `i` with the last
element, restore the heap property on the shortened prefix, then pop
the last element. -/
def heapRemove (l : List Nat) (i : Nat) : List Nat :=
  let n := l.length - 1
  if i = n then l.take n
  else
    let l1 := lswap l i n
    let p := heapDownGo l1 i n
    let l3 := if i < p.2 then p.1 else heapUp p.1 i
    l3.take n

/-- A registration sequence: successive `heap.Push` of each uniqueID,
starting from the empty heap (the member container a MultiEndpointSet
reaches after registering these endpoints in this order). -/
def heapOfList (l : List Nat) : List Nat := l.foldl heapPush []

/-! ### multiPortEndpoint / endpointsByNic / registries -/

/-- `multiPortEndpoint` (MultiEndpointSet): the endpoints sharing one
exact (id, NIC) registration. `endpoints` is the heap slice; `reuse`
is fixed by the first member. The `demux` back-pointer is replaced by
passing the demuxer's queued-protocol set where needed. -/
structure multiPortEndpoint where
  netProto : Nat
  transProto : Nat
  endpoints : List Nat
  reuse : Bool
deriving DecidableEq

/-- `endpointsByNic` (PerNicGroup): NIC → multiPortEndpoint, plus the
random jenkins seed fixed at group creation. -/
structure endpointsByNic where
  endpoints : List (NICID × multiPortEndpoint)
  seed : Nat
deriving DecidableEq

/-- `transportEndpoints` (EndpointRegistry) for one protocol pair.
(The raw-endpoint side list is not involved in any claim and is
omitted.) -/
structure transportEndpoints where
  endpoints : List (TransportEndpointID × endpointsByNic)
deriving DecidableEq

/-- `transportDemuxer`: one registry per protocol pair, plus the set of
protocol pairs registered as queued. -/
structure transportDemuxer where
  protocol : List (protocolIDs × transportEndpoints)
  queuedProtocols : List protocolIDs
deriving DecidableEq

/-- `selectEndpoint` from transport_demuxer.go: a single member is
returned directly; otherwise the seeded jenkins hash of ports (2 bytes
little-endian each, local then remote) followed by local then remote
address bytes is reduced by `reciprocalScale` to index the heap
slice. -/
def selectEndpoint (id : TransportEndpointID) (mpep : multiPortEndpoint) (seed : Nat) : Nat :=
  if mpep.endpoints.length = 1 then lget mpep.endpoints 0
  else
    let h1 := jenkinsWrite seed (portPayload id)
    let h2 := jenkinsWrite h1 id.localAddress
    let h3 := jenkinsWrite h2 id.remoteAddress
    let hash := jenkinsSum32 h3
    let idx := reciprocalScale hash mpep.endpoints.length
    lget mpep.endpoints idx

/-! ### Delivery model -/

/-- The route information `deliverPacket`/`handlePacket` consult:
`r.LocalAddress`, `r.RemoteAddress`, `r.NetProto`, and the receiving
NIC `r.ref.nic.ID()`. -/
structure Route where
  localAddress : Address
  remoteAddress : Address
  netProto : Nat
  nic : NICID
deriving DecidableEq

/-- One observable endpoint invocation: which endpoint received which
packet buffer for which id, and whether it went through the queued
protocol's `QueuePacket` instead of `HandlePacket`. -/
structure Delivery where
  ep : Nat
  id : TransportEndpointID
  pkt : Nat
  queued : Bool
deriving DecidableEq

/-- The externally-owned counters `deliverPacket` increments. -/
structure Stats where
  udpUnknownPortErrors : Nat
  tcpInvalidSegmentsReceived : Nat
deriving DecidableEq

/-- The observable outcome of one `deliverPacket` call. -/
structure DeliverResult where
  handled : Bool
  deliveries : List Delivery
  stats : Stats
deriving DecidableEq

/-- The NIC resolution performed by `endpointsByNic.handlePacket` and
`findTransportEndpoint`: the entry for the receiving NIC if present,
else the entry for NIC 0. -/
def resolveMpep (e : endpointsByNic) (nic : NICID) : Option multiPortEndpoint :=
  match alookup e.endpoints nic with
  | some mp => some mp
  | none => alookup e.endpoints 0

/-- `multiPortEndpoint.handlePacketAll`: deliver to every member; all
but the last get a clone, the last gets the buffer as given. -/
def multiPortEndpoint.handlePacketAll (ep : multiPortEndpoint) (queued : List protocolIDs)
    (id : TransportEndpointID) (pkt : Nat) : List Delivery :=
  let mustQueue := queued.contains ⟨ep.netProto, ep.transProto⟩
  ep.endpoints.dropLast.map (fun t => ⟨t, id, pkt + 1, mustQueue⟩) ++
    match ep.endpoints.getLast? with
    | some t => [⟨t, id, pkt, mustQueue⟩]
    | none => []

/-- `endpointsByNic.handlePacket`: resolve the NIC (falling back to 0,
dropping the packet when neither resolves); for a multicast/broadcast
local address deliver to all members, otherwise to the jenkins-selected
member. -/
def endpointsByNic.handlePacket (e : endpointsByNic) (queued : List protocolIDs) (r : Route)
    (id : TransportEndpointID) (pkt : Nat) : List Delivery :=
  match resolveMpep e r.nic with
  | none => []
  | some mpep =>
    if isMulticastOrBroadcast id.localAddress then
      mpep.handlePacketAll queued id pkt
    else
      [⟨selectEndpoint id mpep e.seed, id, pkt,
        queued.contains ⟨mpep.netProto, mpep.transProto⟩⟩]

/-! ### Matching search -/

/-- The four probe keys of `iterEndpointsLocked`, in source order:
exact id; local address wildcarded; remote address and port
wildcarded; only the local port. -/
def tierKeys (id : TransportEndpointID) : List TransportEndpointID :=
  [id,
   { id with localAddress := [] },
   { id with remoteAddress := [], remotePort := 0 },
   { id with localAddress := [], remoteAddress := [], remotePort := 0 }]

/-- `findAllEndpointsLocked`: every tier's hit, in tier order
(duplicate keys produce duplicate entries). -/
def findAllEndpointsLocked (eps : transportEndpoints) (id : TransportEndpointID) :
    List endpointsByNic :=
  (tierKeys id).filterMap (alookup eps.endpoints)

/-- `findEndpointLocked`: the first tier that has an entry
(`iterEndpointsLocked` with a yield that stops after one hit). -/
def findEndpointLocked (eps : transportEndpoints) (id : TransportEndpointID) :
    Option endpointsByNic :=
  (findAllEndpointsLocked eps id).head?

/-! ### Registration -/

/-- `multiPortEndpoint.singleRegisterEndpoint`: an empty set accepts
unconditionally; a non-empty set accepts only when both its own
`reuse` flag and the caller's `reusePort` are true, failing with
`ErrPortInUse` otherwise. -/
def multiPortEndpoint.singleRegisterEndpoint (ep : multiPortEndpoint) (t : Nat)
    (reusePort : Bool) : Option TcpipError × multiPortEndpoint :=
  if ep.endpoints.length ≠ 0 ∧ (ep.reuse = false ∨ reusePort = false) then
    (some .PortInUse, ep)
  else
    (none, { ep with endpoints := heapPush ep.endpoints t })

/-- `endpointsByNic.registerEndpoint`: get or create (with the
caller's `reusePort` as the set's `reuse` flag) the MultiEndpointSet
for the bound device, then delegate. -/
def endpointsByNic.registerEndpoint (e : endpointsByNic) (netProto transProto : Nat)
    (t : Nat) (reusePort : Bool) (bindToDevice : NICID) :
    Option TcpipError × endpointsByNic :=
  let multiPortEp :=
    (alookup e.endpoints bindToDevice).getD ⟨netProto, transProto, [], reusePort⟩
  let p := multiPortEp.singleRegisterEndpoint t reusePort
  (p.1, { e with endpoints := ainsert e.endpoints bindToDevice p.2 })

/-- `multiPortEndpoint.unregisterEndpoint`: remove the first member
equal to `t` via `heap.Remove`; report whether the set is now empty. -/
def multiPortEndpoint.unregisterEndpoint (ep : multiPortEndpoint) (t : Nat) :
    Bool × multiPortEndpoint :=
  let eps' :=
    match ep.endpoints.findIdx? (fun x => x == t) with
    | some i => heapRemove ep.endpoints i
    | none => ep.endpoints
  (eps'.length == 0, { ep with endpoints := eps' })

/-- `endpointsByNic.unregisterEndpoint`: delegate to the device's set,
delete the device entry when its set became empty; report whether the
whole group is now empty. -/
def endpointsByNic.unregisterEndpoint (e : endpointsByNic) (bindToDevice : NICID)
    (t : Nat) : Bool × endpointsByNic :=
  match alookup e.endpoints bindToDevice with
  | none => (false, e)
  | some mp =>
    let p := mp.unregisterEndpoint t
    let eps' :=
      if p.1 then aremove e.endpoints bindToDevice
      else ainsert e.endpoints bindToDevice p.2
    (eps'.length == 0, { e with endpoints := eps' })

/-- `transportEndpoints.unregisterEndpoint`: delegate to the id's
group and delete the id entry when the group reports empty. -/
def transportEndpoints.unregisterEndpoint (eps : transportEndpoints)
    (id : TransportEndpointID) (t : Nat) (bindToDevice : NICID) : transportEndpoints :=
  match alookup eps.endpoints id with
  | none => eps
  | some epsByNic =>
    let p := epsByNic.unregisterEndpoint bindToDevice t
    let m1 := ainsert eps.endpoints id p.2
    if p.1 then ⟨aremove m1 id⟩ else ⟨m1⟩

/-- `transportDemuxer.singleRegisterEndpoint`: force `reusePort` off
for connected-style registrations (`id.remotePort != 0`); fail with
`ErrUnknownProtocol` for an unknown pair; get or create (with the
given fresh random seed) the id's group and delegate. -/
def transportDemuxer.singleRegisterEndpoint (d : transportDemuxer)
    (netProto protocol : Nat) (id : TransportEndpointID) (ep : Nat)
    (reusePort : Bool) (bindToDevice : NICID) (freshSeed : Nat) :
    Option TcpipError × transportDemuxer :=
  let reusePort' := if id.remotePort ≠ 0 then false else reusePort
  match alookup d.protocol ⟨netProto, protocol⟩ with
  | none => (some .UnknownProtocol, d)
  | some eps =>
    let epsByNic := (alookup eps.endpoints id).getD ⟨[], freshSeed⟩
    let p := epsByNic.registerEndpoint netProto protocol ep reusePort' bindToDevice
    let eps' : transportEndpoints := ⟨ainsert eps.endpoints id p.2⟩
    (p.1, { d with protocol := ainsert d.protocol ⟨netProto, protocol⟩ eps' })

/-- `transportDemuxer.unregisterEndpoint`: best-effort unregister of
every listed network protocol. -/
def transportDemuxer.unregisterEndpoint (d : transportDemuxer) (netProtos : List Nat)
    (protocol : Nat) (id : TransportEndpointID) (ep : Nat) (bindToDevice : NICID) :
    transportDemuxer :=
  netProtos.foldl
    (fun d n =>
      match alookup d.protocol ⟨n, protocol⟩ with
      | some eps =>
        { d with protocol :=
            ainsert d.protocol ⟨n, protocol⟩ (eps.unregisterEndpoint id ep bindToDevice) }
      | none => d)
    d

/-- The loop body of `transportDemuxer.registerEndpoint`: register the
remaining protocols one at a time; on the first failure, unregister
every protocol already registered in this call (`netProtos[:i]`) and
return the error. -/
def transportDemuxer.registerEndpointLoop (d : transportDemuxer) (done rest : List Nat)
    (protocol : Nat) (id : TransportEndpointID) (ep : Nat) (reusePort : Bool)
    (bindToDevice : NICID) (freshSeed : Nat) : Option TcpipError × transportDemuxer :=
  match rest with
  | [] => (none, d)
  | n :: rest' =>
    let p := d.singleRegisterEndpoint n protocol id ep reusePort bindToDevice freshSeed
    match p.1 with
    | some e => (some e, p.2.unregisterEndpoint done protocol id ep bindToDevice)
    | none =>
      p.2.registerEndpointLoop (done ++ [n]) rest' protocol id ep reusePort bindToDevice
        freshSeed

/-- `transportDemuxer.registerEndpoint`: register across every listed
network protocol, rolling back on partial failure. -/
def transportDemuxer.registerEndpoint (d : transportDemuxer) (netProtos : List Nat)
    (protocol : Nat) (id : TransportEndpointID) (ep : Nat) (reusePort : Bool)
    (bindToDevice : NICID) (freshSeed : Nat) : Option TcpipError × transportDemuxer :=
  d.registerEndpointLoop [] netProtos protocol id ep reusePort bindToDevice freshSeed

/-! ### deliverPacket -/

/-- `transportDemuxer.deliverPacket`: unknown protocol pair → not
handled; UDP to a multicast/broadcast local address → fan-out to every
matched group (clones to all but the last matched group, which gets
the original buffer), unknown-port counter and `false` when no group
matched; TCP with a non-unicast route address → drop, counting an
invalid segment, reporting handled; otherwise unicast delivery to the
best match, with the UDP unknown-port counter on a miss. -/
def transportDemuxer.deliverPacket (d : transportDemuxer) (r : Route) (protocol : Nat)
    (pkt : Nat) (id : TransportEndpointID) (stats : Stats) : DeliverResult :=
  match alookup d.protocol ⟨r.netProto, protocol⟩ with
  | none => ⟨false, [], stats⟩
  | some eps =>
    if protocol = UDPProtocolNumber ∧ isMulticastOrBroadcast id.localAddress = true then
      let destEPs := findAllEndpointsLocked eps id
      if destEPs.length = 0 then
        ⟨false, [],
         { stats with udpUnknownPortErrors := stats.udpUnknownPortErrors + 1 }⟩
      else
        ⟨true,
         concatMap (fun e => e.handlePacket d.queuedProtocols r id (pkt + 1))
             destEPs.dropLast ++
           (match destEPs.getLast? with
            | some e => e.handlePacket d.queuedProtocols r id pkt
            | none => []),
         stats⟩
    else if protocol = TCPProtocolNumber ∧
        (isUnicast r.localAddress = false ∨ isUnicast r.remoteAddress = false) then
      ⟨true, [],
       { stats with tcpInvalidSegmentsReceived := stats.tcpInvalidSegmentsReceived + 1 }⟩
    else
      match findEndpointLocked eps id with
      | none =>
        if protocol = UDPProtocolNumber then
          ⟨false, [],
           { stats with udpUnknownPortErrors := stats.udpUnknownPortErrors + 1 }⟩
        else ⟨false, [], stats⟩
      | some ep => ⟨true, ep.handlePacket d.queuedProtocols r id pkt, stats⟩

/-! ### Observation functions and invariants -/

/-- The registry invariant of the spec: every EndpointID entry has at least
one live per-NIC group entry, and every per-NIC entry has at least one live
member in its MultiEndpointSet. -/
def registryWF (eps : transportEndpoints) : Prop :=
  ∀ p ∈ eps.endpoints, p.2.endpoints ≠ [] ∧ ∀ q ∈ p.2.endpoints, q.2.endpoints ≠ []

/-- The registry invariant over every protocol pair of the demuxer. -/
def demuxWF (d : transportDemuxer) : Prop :=
  ∀ pr ∈ d.protocol, registryWF pr.2

/-- How many registrations of endpoint `t` a PerNicGroup holds at `nic`. -/
def nicCount (e : endpointsByNic) (nic : NICID) (t : Nat) : Nat :=
  match alookup e.endpoints nic with
  | none => 0
  | some mp => mp.endpoints.count t

/-- How many registrations of endpoint `t` a registry holds at (id, nic). -/
def epsCount (eps : transportEndpoints) (id : TransportEndpointID) (t : Nat)
    (nic : NICID) : Nat :=
  match alookup eps.endpoints id with
  | none => 0
  | some e => nicCount e nic t

/-- How many registrations of endpoint `t` the demuxer holds under
(netProto, protocol, id, nic): the observable registration state of one
endpoint (0 = not registered). -/
def epCount (d : transportDemuxer) (netProto protocol : Nat) (id : TransportEndpointID)
    (t : Nat) (nic : NICID) : Nat :=
  match alookup d.protocol ⟨netProto, protocol⟩ with
  | none => 0
  | some eps => epsCount eps id t nic

/-- A demonstration id: a listening-style binding (wildcard remote part). -/
def rollbackId : TransportEndpointID := ⟨80, [10, 0, 0, 1], 0, []⟩

/-- A demonstration demuxer: protocol pair (1, 17) is empty, while pair
(2, 17) already holds a non-reuse registration of endpoint 7 under
`rollbackId` on NIC 0, so a dual-protocol registration of a fresh endpoint
succeeds on 1 and collides on 2. -/
def rollbackDemo : transportDemuxer :=
  ⟨[(⟨1, 17⟩, ⟨[]⟩), (⟨2, 17⟩, ⟨[(rollbackId, ⟨[(0, ⟨2, 17, [7], false⟩)], 4⟩)]⟩)], []⟩

/-! ## Lemmas: association lists -/

theorem alookup_ainsert_self {α β : Type} [DecidableEq α] (l : List (α × β)) (k : α) (v : β) :
    alookup (ainsert l k v) k = some v := by
  induction l with
  | nil => simp [ainsert, alookup]
  | cons p t ih =>
    by_cases h : p.1 = k
    · simp [ainsert, alookup, h]
    · simp [ainsert, alookup, h, ih]

theorem alookup_ainsert_ne {α β : Type} [DecidableEq α] (l : List (α × β)) (k k' : α) (v : β)
    (h : k' ≠ k) : alookup (ainsert l k v) k' = alookup l k' := by
  induction l with
  | nil =>
    simp only [ainsert, alookup]
    rw [if_neg (fun he => h he.symm)]
  | cons p t ih =>
    by_cases hp : p.1 = k
    · simp only [ainsert, if_pos hp, alookup]
      rw [if_neg (fun he => h he.symm), if_neg (by rw [hp]; exact fun he => h he.symm)]
    · simp only [ainsert, if_neg hp, alookup]
      by_cases hp' : p.1 = k'
      · simp [hp']
      · simp [hp', ih]

theorem ainsert_lookup_self {α β : Type} [DecidableEq α] (l : List (α × β)) (k : α) (v : β)
    (h : alookup l k = some v) : ainsert l k v = l := by
  induction l with
  | nil => simp [alookup] at h
  | cons p t ih =>
    by_cases hp : p.1 = k
    · simp only [alookup, if_pos hp, Option.some.injEq] at h
      simp only [ainsert, if_pos hp]
      rw [← hp, ← h]
    · simp only [alookup, if_neg hp] at h
      simp [ainsert, hp, ih h]

theorem aremove_cons_self {α β : Type} [DecidableEq α] (p : α × β) (t : List (α × β))
    (k : α) (hp : p.1 = k) : aremove (p :: t) k = aremove t k := by
  simp [aremove, List.filter_cons, hp]

theorem aremove_cons_ne {α β : Type} [DecidableEq α] (p : α × β) (t : List (α × β))
    (k : α) (hp : p.1 ≠ k) : aremove (p :: t) k = p :: aremove t k := by
  simp [aremove, List.filter_cons, hp]

theorem alookup_aremove_self {α β : Type} [DecidableEq α] (l : List (α × β)) (k : α) :
    alookup (aremove l k) k = none := by
  induction l with
  | nil => rfl
  | cons p t ih =>
    by_cases hp : p.1 = k
    · rw [aremove_cons_self p t k hp]; exact ih
    · rw [aremove_cons_ne p t k hp, alookup, if_neg hp]; exact ih

theorem alookup_aremove_ne {α β : Type} [DecidableEq α] (l : List (α × β)) (k k' : α)
    (h : k' ≠ k) : alookup (aremove l k) k' = alookup l k' := by
  induction l with
  | nil => rfl
  | cons p t ih =>
    by_cases hp : p.1 = k
    · rw [aremove_cons_self p t k hp, ih, alookup,
        if_neg (by rw [hp]; exact fun he => h he.symm)]
    · rw [aremove_cons_ne p t k hp, alookup, alookup]
      by_cases hp' : p.1 = k'
      · rw [if_pos hp', if_pos hp']
      · rw [if_neg hp', if_neg hp', ih]

theorem mem_ainsert {α β : Type} [DecidableEq α] (l : List (α × β)) (k : α) (v : β)
    (p : α × β) (h : p ∈ ainsert l k v) : p = (k, v) ∨ p ∈ l := by
  induction l with
  | nil => simpa [ainsert] using h
  | cons q t ih =>
    by_cases hq : q.1 = k
    · simp only [ainsert, if_pos hq, List.mem_cons] at h
      rcases h with h | h
      · exact Or.inl h
      · exact Or.inr (List.mem_cons_of_mem q h)
    · simp only [ainsert, if_neg hq, List.mem_cons] at h
      rcases h with h | h
      · exact Or.inr (by simp [h])
      · rcases ih h with h' | h'
        · exact Or.inl h'
        · exact Or.inr (List.mem_cons_of_mem q h')

theorem mem_aremove {α β : Type} [DecidableEq α] (l : List (α × β)) (k : α)
    (p : α × β) (h : p ∈ aremove l k) : p ∈ l :=
  List.mem_of_mem_filter h

/-! ## Lemmas: list indexing and swaps -/

theorem lget_set_self (l : List Nat) (i v : Nat) (h : i < l.length) :
    lget (l.set i v) i = v := by
  simp [lget, List.getD_eq_getElem?_getD, List.getElem?_set, h]

theorem lget_set_ne (l : List Nat) (i j v : Nat) (h : i ≠ j) :
    lget (l.set i v) j = lget l j := by
  simp [lget, List.getD_eq_getElem?_getD, List.getElem?_set_ne h]

theorem set_lget_self (l : List Nat) (i : Nat) (h : i < l.length) :
    l.set i (lget l i) = l := by
  induction l generalizing i with
  | nil => simp at h
  | cons b t ih =>
    cases i with
    | zero => simp [lget]
    | succ i' =>
      simp only [List.length_cons, Nat.add_lt_add_iff_right] at h
      simp [lget, List.getD_cons_succ, List.set_cons_succ]
      simpa [lget] using ih i' h

theorem length_lswap (l : List Nat) (i j : Nat) : (lswap l i j).length = l.length := by
  simp [lswap]

theorem perm_set_head (t : List Nat) (k a : Nat) (h : k < t.length) :
    (lget t k :: t.set k a).Perm (a :: t) := by
  induction t generalizing k with
  | nil => simp at h
  | cons b t' ih =>
    cases k with
    | zero => simpa [lget] using List.Perm.swap a b t'
    | succ k' =>
      have h' : k' < t'.length := by simpa using h
      have step1 : (lget t' k' :: b :: t'.set k' a).Perm (b :: lget t' k' :: t'.set k' a) :=
        List.Perm.swap b (lget t' k') (t'.set k' a)
      have step2 : (b :: lget t' k' :: t'.set k' a).Perm (b :: (a :: t')) :=
        (ih k' h').cons b
      have step3 : (b :: a :: t').Perm (a :: b :: t') := List.Perm.swap a b t'
      simpa [lget, List.getD_cons_succ, List.set_cons_succ] using
        (step1.trans step2).trans step3

theorem lswap_comm (l : List Nat) (i j : Nat) (h : i ≠ j) : lswap l i j = lswap l j i := by
  simp [lswap, List.set_comm _ _ _ h]

theorem lswap_perm (l : List Nat) (i j : Nat) (hi : i < l.length) (hj : j < l.length) :
    (lswap l i j).Perm l := by
  induction l generalizing i j with
  | nil => simp at hi
  | cons b t ih =>
    cases i with
    | zero =>
      cases j with
      | zero => simp [lswap, lget, set_lget_self]
      | succ j' =>
        have hj' : j' < t.length := by simpa using hj
        have : lswap (b :: t) 0 (j' + 1) = lget t j' :: t.set j' b := by
          simp [lswap, lget, List.getD_cons_succ, List.set_cons_succ]
        rw [this]
        exact perm_set_head t j' b hj'
    | succ i' =>
      cases j with
      | zero =>
        rw [lswap_comm _ _ _ (by omega)]
        have hi' : i' < t.length := by simpa using hi
        have : lswap (b :: t) 0 (i' + 1) = lget t i' :: t.set i' b := by
          simp [lswap, lget, List.getD_cons_succ, List.set_cons_succ]
        rw [this]
        exact perm_set_head t i' b hi'
      | succ j' =>
        have hi' : i' < t.length := by simpa using hi
        have hj' : j' < t.length := by simpa using hj
        have : lswap (b :: t) (i' + 1) (j' + 1) = b :: lswap t i' j' := by
          simp [lswap, lget, List.getD_cons_succ, List.set_cons_succ]
        rw [this]
        exact (ih i' j' hi' hj').cons b

theorem drop_lswap (l : List Nat) (i j m : Nat) (hi : i < m) (hj : j < m) :
    (lswap l i j).drop m = l.drop m := by
  simp [lswap, List.drop_set, hi, hj]

/-! ## Lemmas: the endpoint heap -/

theorem heapUp_perm (l : List Nat) (j : Nat) (h : j < l.length) : (heapUp l j).Perm l := by
  induction j using Nat.strong_induction_on generalizing l with
  | _ j ih =>
    match j with
    | 0 => rw [heapUp]
    | j' + 1 =>
      rw [heapUp]
      by_cases hc : lget l (j' + 1) < lget l (j' / 2)
      · rw [if_pos hc]
        refine (ih (j' / 2) (by omega) _ ?_).trans
          (lswap_perm l (j' + 1) (j' / 2) h (by omega))
        rw [length_lswap]; omega
      · rw [if_neg hc]

theorem heapUp_drop (l : List Nat) (j m : Nat) (h : j < m) :
    (heapUp l j).drop m = l.drop m := by
  induction j using Nat.strong_induction_on generalizing l with
  | _ j ih =>
    match j with
    | 0 => rw [heapUp]
    | j' + 1 =>
      rw [heapUp]
      by_cases hc : lget l (j' + 1) < lget l (j' / 2)
      · rw [if_pos hc, ih (j' / 2) (by omega) _ (by omega),
          drop_lswap l (j' + 1) (j' / 2) m h (by omega)]
      · rw [if_neg hc]

theorem heapPush_perm (l : List Nat) (x : Nat) : (heapPush l x).Perm (x :: l) :=
  (heapUp_perm (l ++ [x]) l.length (by simp)).trans (List.perm_append_singleton x l)

theorem heapPush_length (l : List Nat) (x : Nat) : (heapPush l x).length = l.length + 1 := by
  simpa using (heapPush_perm l x).length_eq

theorem heapPush_count (l : List Nat) (x a : Nat) :
    (heapPush l x).count a = l.count a + (if x = a then 1 else 0) := by
  have h := (heapPush_perm l x).count_eq a
  rw [h, List.count_cons]
  by_cases hx : x = a <;> simp [hx]

theorem heapDownGo_perm (l : List Nat) (i n : Nat) (hn : n ≤ l.length) :
    (heapDownGo l i n).1.Perm l := by
  induction l, i, n using heapDownGo.induct with
  | case1 l i n h1 h2 h3 ih =>
    rw [heapDownGo, dif_pos h1, if_pos h2, if_pos h3]
    refine (ih ?_).trans (lswap_perm l i (2 * i + 2) (by omega) (by omega))
    rw [length_lswap]; exact hn
  | case2 l i n h1 h2 h3 =>
    rw [heapDownGo, dif_pos h1, if_pos h2, if_neg h3]
  | case3 l i n h1 h2 h3 ih =>
    rw [heapDownGo, dif_pos h1, if_neg h2, if_pos h3]
    refine (ih ?_).trans (lswap_perm l i (2 * i + 1) (by omega) (by omega))
    rw [length_lswap]; exact hn
  | case4 l i n h1 h2 h3 =>
    rw [heapDownGo, dif_pos h1, if_neg h2, if_neg h3]
  | case5 l i n h1 =>
    rw [heapDownGo, dif_neg h1]

theorem heapDownGo_drop (l : List Nat) (i n m : Nat) (hm : n ≤ m) :
    (heapDownGo l i n).1.drop m = l.drop m := by
  induction l, i, n using heapDownGo.induct with
  | case1 l i n h1 h2 h3 ih =>
    rw [heapDownGo, dif_pos h1, if_pos h2, if_pos h3, ih hm,
      drop_lswap l i (2 * i + 2) m (by omega) (by omega)]
  | case2 l i n h1 h2 h3 =>
    rw [heapDownGo, dif_pos h1, if_pos h2, if_neg h3]
  | case3 l i n h1 h2 h3 ih =>
    rw [heapDownGo, dif_pos h1, if_neg h2, if_pos h3, ih hm,
      drop_lswap l i (2 * i + 1) m (by omega) (by omega)]
  | case4 l i n h1 h2 h3 =>
    rw [heapDownGo, dif_pos h1, if_neg h2, if_neg h3]
  | case5 l i n h1 =>
    rw [heapDownGo, dif_neg h1]

theorem count_take_of_perm_drop (l l3 : List Nat) (m : Nat) (hperm : l3.Perm l)
    (hdrop : l3.drop m = l.drop m) (a : Nat) :
    (l3.take m).count a = (l.take m).count a := by
  have h1 : (l3.take m).count a + (l3.drop m).count a = l3.count a := by
    rw [← List.count_append, List.take_append_drop]
  have h2 : (l.take m).count a + (l.drop m).count a = l.count a := by
    rw [← List.count_append, List.take_append_drop]
  have h3 := hperm.count_eq a
  rw [hdrop] at h1
  omega

theorem drop_last_singleton (l : List Nat) (n : Nat) (h : n + 1 = l.length) :
    l.drop n = [lget l n] := by
  induction l generalizing n with
  | nil => simp at h
  | cons b t ih =>
    cases n with
    | zero =>
      have : t = [] := by
        cases t with
        | nil => rfl
        | cons c t' => simp at h
      simp [this, lget]
    | succ n' =>
      have h' : n' + 1 = t.length := by simpa using h
      simpa [lget, List.getD_cons_succ] using ih n' h'

theorem heapRemove_eq_of_eq (l : List Nat) (i : Nat) (h : i = l.length - 1) :
    heapRemove l i = l.take (l.length - 1) := by
  unfold heapRemove
  rw [if_pos h]

theorem heapRemove_eq_of_ne (l : List Nat) (i : Nat) (h : ¬i = l.length - 1) :
    heapRemove l i =
      (if i < (heapDownGo (lswap l i (l.length - 1)) i (l.length - 1)).2 then
        (heapDownGo (lswap l i (l.length - 1)) i (l.length - 1)).1
      else
        heapUp (heapDownGo (lswap l i (l.length - 1)) i (l.length - 1)).1 i).take
        (l.length - 1) := by
  unfold heapRemove
  rw [if_neg h]

theorem heapRemove_count (l : List Nat) (i : Nat) (hi : i < l.length) (a : Nat) :
    (heapRemove l i).count a = l.count a - (if lget l i = a then 1 else 0) := by
  by_cases hcase : i = l.length - 1
  · rw [heapRemove_eq_of_eq l i hcase]
    have hlen : (l.length - 1) + 1 = l.length := by omega
    have hdrop := drop_last_singleton l (l.length - 1) hlen
    have h2 : (l.take (l.length - 1)).count a + (l.drop (l.length - 1)).count a
        = l.count a := by
      rw [← List.count_append, List.take_append_drop]
    rw [hdrop] at h2
    have hcount : ([lget l (l.length - 1)] : List Nat).count a
        = if lget l i = a then 1 else 0 := by
      rw [hcase]
      by_cases hx : lget l (l.length - 1) = a <;> simp [hx, List.count_singleton]
    rw [hcount] at h2
    omega
  · rw [heapRemove_eq_of_ne l i hcase]
    have hilt : i < l.length - 1 := by omega
    have hlen1 : (lswap l i (l.length - 1)).length = l.length := length_lswap ..
    -- the last slot of the swapped list holds the removed element
    have hlast : lget (lswap l i (l.length - 1)) (l.length - 1) = lget l i := by
      rw [lswap, lget_set_self _ _ _ (by rw [List.length_set]; omega)]
    have hdrop1 : (lswap l i (l.length - 1)).drop (l.length - 1)
        = [lget l i] := by
      rw [drop_last_singleton _ _ (by omega), hlast]
    -- the sift preserves both the multiset and the final slot
    set l1 := lswap l i (l.length - 1) with hl1
    set p := heapDownGo l1 i (l.length - 1) with hp
    have hperm1 : p.1.Perm l1 := heapDownGo_perm l1 i (l.length - 1) (by omega)
    have hdrop2 : p.1.drop (l.length - 1) = l1.drop (l.length - 1) :=
      heapDownGo_drop l1 i (l.length - 1) (l.length - 1) (le_refl _)
    have hlenp : p.1.length = l.length := by rw [hperm1.length_eq, hlen1]
    set l3 := if i < p.2 then p.1 else heapUp p.1 i with hl3
    have hperm3 : l3.Perm l := by
      rw [hl3]
      by_cases hmoved : i < p.2
      · rw [if_pos hmoved]
        exact hperm1.trans (lswap_perm l i (l.length - 1) hi (by omega))
      · rw [if_neg hmoved]
        exact ((heapUp_perm p.1 i (by omega)).trans hperm1).trans
          (lswap_perm l i (l.length - 1) hi (by omega))
    have hdrop3 : l3.drop (l.length - 1) = [lget l i] := by
      rw [hl3]
      by_cases hmoved : i < p.2
      · rw [if_pos hmoved, hdrop2]; exact hdrop1
      · rw [if_neg hmoved, heapUp_drop p.1 i (l.length - 1) hilt, hdrop2]; exact hdrop1
    have h2 : (l3.take (l.length - 1)).count a + (l3.drop (l.length - 1)).count a
        = l3.count a := by
      rw [← List.count_append, List.take_append_drop]
    have h3 := hperm3.count_eq a
    rw [hdrop3] at h2
    by_cases hx : lget l i = a
    · rw [if_pos hx]
      rw [hx] at h2
      simp [List.count_singleton] at h2
      omega
    · rw [if_neg hx]
      have : ([lget l i] : List Nat).count a = 0 := by simp [hx, List.count_singleton]
      rw [this] at h2
      omega

theorem heapRemove_length (l : List Nat) (i : Nat) (hi : i < l.length) :
    (heapRemove l i).length = l.length - 1 := by
  by_cases hcase : i = l.length - 1
  · rw [heapRemove_eq_of_eq l i hcase, List.length_take]
    omega
  · rw [heapRemove_eq_of_ne l i hcase, List.length_take]
    set l1 := lswap l i (l.length - 1) with hl1
    set p := heapDownGo l1 i (l.length - 1) with hp
    have hperm1 : p.1.Perm l1 := heapDownGo_perm l1 i (l.length - 1) (by rw [length_lswap]; omega)
    have hlenp : p.1.length = l.length := by rw [hperm1.length_eq, hl1, length_lswap]
    by_cases hmoved : i < p.2
    · rw [if_pos hmoved]; omega
    · rw [if_neg hmoved, (heapUp_perm p.1 i (by omega)).length_eq]; omega

theorem foldl_heapPush_perm (ts acc : List Nat) :
    (ts.foldl heapPush acc).Perm (acc ++ ts) := by
  induction ts generalizing acc with
  | nil => simp
  | cons x t ih =>
    have h1 := ih (heapPush acc x)
    have h2 : (heapPush acc x ++ t).Perm ((acc ++ [x]) ++ t) :=
      ((heapPush_perm acc x).trans (List.perm_append_singleton x acc).symm).append_right t
    simpa [List.append_assoc] using h1.trans h2

theorem heapOfList_perm (ts : List Nat) : (heapOfList ts).Perm ts := by
  simpa using foldl_heapPush_perm ts []

/-! ## Lemmas: the jenkins hash -/

theorem jenkinsMix_lt (h b : Nat) : jenkinsMix h b < 2 ^ 32 := by
  unfold jenkinsMix
  exact Nat.xor_lt_two_pow (Nat.mod_lt _ (by norm_num))
    (Nat.lt_of_le_of_lt (Nat.div_le_self _ _) (Nat.mod_lt _ (by norm_num)))

theorem foldl_jenkinsMix_lt (data : List Nat) (init : Nat) (h : init < 2 ^ 32) :
    data.foldl jenkinsMix init < 2 ^ 32 := by
  induction data generalizing init with
  | nil => exact h
  | cons b t ih => exact ih _ (jenkinsMix_lt init b)

theorem jenkinsWrite_lt (h : Nat) (data : List Nat) : jenkinsWrite h data < 2 ^ 32 :=
  foldl_jenkinsMix_lt data _ (Nat.mod_lt _ (by norm_num))

/-- The incremental hash agrees with the one-shot hash of the
concatenation: successive `Write`s compose. -/
theorem jenkinsWrite_append (h : Nat) (a b : List Nat) :
    jenkinsWrite h (a ++ b) = jenkinsWrite (jenkinsWrite h a) b := by
  unfold jenkinsWrite
  rw [List.foldl_append,
    Nat.mod_eq_of_lt (foldl_jenkinsMix_lt a _ (Nat.mod_lt _ (by norm_num)))]

/-! ## Lemmas: registration bookkeeping -/

theorem alookup_mem {α β : Type} [DecidableEq α] (l : List (α × β)) (k : α) (v : β)
    (h : alookup l k = some v) : (k, v) ∈ l := by
  induction l with
  | nil => simp [alookup] at h
  | cons p t ih =>
    by_cases hp : p.1 = k
    · simp only [alookup, if_pos hp, Option.some.injEq] at h
      have : p = (k, v) := by
        cases p
        simp_all
      simp [this]
    · simp only [alookup, if_neg hp] at h
      exact List.mem_cons_of_mem p (ih h)

theorem ainsert_ne_nil {α β : Type} [DecidableEq α] (l : List (α × β)) (k : α) (v : β) :
    ainsert l k v ≠ [] := by
  cases l with
  | nil => simp [ainsert]
  | cons p t =>
    by_cases hp : p.1 = k <;> simp [ainsert, hp]

theorem mem_aremove_ne {α β : Type} [DecidableEq α] (l : List (α × β)) (k : α)
    (p : α × β) (h : p ∈ aremove l k) : p.1 ≠ k ∧ p ∈ l := by
  unfold aremove at h
  have h1 := List.of_mem_filter h
  have h2 := List.mem_of_mem_filter h
  exact ⟨by simpa using h1, h2⟩

theorem findIdx?_some_spec (l : List Nat) (t : Nat) (s i : Nat)
    (h : l.findIdx? (fun x => x == t) s = some i) :
    s ≤ i ∧ i - s < l.length ∧ lget l (i - s) = t := by
  induction l generalizing s with
  | nil => simp [List.findIdx?_nil] at h
  | cons x xs ih =>
    rw [List.findIdx?_cons] at h
    by_cases hx : (x == t) = true
    · rw [if_pos hx] at h
      have hi : i = s := (Option.some.inj h).symm
      subst hi
      refine ⟨Nat.le_refl _, by simp, ?_⟩
      simp only [Nat.sub_self]
      simpa [lget] using beq_iff_eq.mp hx
    · rw [if_neg hx] at h
      obtain ⟨h1, h2, h3⟩ := ih (s + 1) h
      refine ⟨by omega, by simp; omega, ?_⟩
      have hs : i - s = (i - (s + 1)) + 1 := by omega
      rw [hs]
      simpa [lget, List.getD_cons_succ] using h3

theorem findIdx?_none_spec (l : List Nat) (t : Nat) (s : Nat)
    (h : l.findIdx? (fun x => x == t) s = none) : l.count t = 0 := by
  induction l generalizing s with
  | nil => simp
  | cons x xs ih =>
    rw [List.findIdx?_cons] at h
    by_cases hx : (x == t) = true
    · rw [if_pos hx] at h
      simp at h
    · rw [if_neg hx] at h
      rw [List.count_cons, ih (s + 1) h]
      simp only [Nat.zero_add]
      rw [if_neg hx]

theorem singleRegister_fst_none_of_empty (mp : multiPortEndpoint) (t : Nat) (rp : Bool)
    (h : mp.endpoints = []) :
    mp.singleRegisterEndpoint t rp =
      (none, { mp with endpoints := heapPush mp.endpoints t }) := by
  unfold multiPortEndpoint.singleRegisterEndpoint
  rw [if_neg (by simp [h])]

theorem singleRegister_snd_ne_nil (mp : multiPortEndpoint) (t : Nat) (rp : Bool) :
    ((mp.singleRegisterEndpoint t rp).2).endpoints ≠ [] := by
  unfold multiPortEndpoint.singleRegisterEndpoint
  by_cases hc : mp.endpoints.length ≠ 0 ∧ (mp.reuse = false ∨ rp = false)
  · rw [if_pos hc]
    intro h0
    rw [List.length_eq_zero.mpr h0] at hc
    exact hc.1 rfl
  · rw [if_neg hc]
    intro h0
    have h0' : heapPush mp.endpoints t = [] := h0
    have h1 := heapPush_length mp.endpoints t
    rw [h0'] at h1
    simp at h1

theorem singleRegister_fail_eps (mp : multiPortEndpoint) (t : Nat) (rp : Bool) (e : TcpipError)
    (h : (mp.singleRegisterEndpoint t rp).1 = some e) :
    (mp.singleRegisterEndpoint t rp).2 = mp ∧ mp.endpoints ≠ [] := by
  unfold multiPortEndpoint.singleRegisterEndpoint at h ⊢
  by_cases hc : mp.endpoints.length ≠ 0 ∧ (mp.reuse = false ∨ rp = false)
  · rw [if_pos hc]
    exact ⟨rfl, fun h0 => hc.1 (by simp [h0])⟩
  · rw [if_neg hc] at h
    simp at h

theorem singleRegister_ok_eps (mp : multiPortEndpoint) (t : Nat) (rp : Bool)
    (h : (mp.singleRegisterEndpoint t rp).1 = none) :
    (mp.singleRegisterEndpoint t rp).2 =
      { mp with endpoints := heapPush mp.endpoints t } := by
  unfold multiPortEndpoint.singleRegisterEndpoint at h ⊢
  by_cases hc : mp.endpoints.length ≠ 0 ∧ (mp.reuse = false ∨ rp = false)
  · rw [if_pos hc] at h
    simp at h
  · rw [if_neg hc]

theorem mp_unregister_fst (mp : multiPortEndpoint) (t : Nat) :
    (mp.unregisterEndpoint t).1 =
      ((mp.unregisterEndpoint t).2.endpoints.length == 0) := by
  unfold multiPortEndpoint.unregisterEndpoint
  cases hfi : mp.endpoints.findIdx? (fun x => x == t) <;> rfl

theorem mp_unregister_count (mp : multiPortEndpoint) (t : Nat) :
    ((mp.unregisterEndpoint t).2).endpoints.count t = mp.endpoints.count t - 1 := by
  unfold multiPortEndpoint.unregisterEndpoint
  cases hfi : mp.endpoints.findIdx? (fun x => x == t) with
  | none =>
    have h0 := findIdx?_none_spec mp.endpoints t 0 hfi
    show mp.endpoints.count t = mp.endpoints.count t - 1
    rw [h0]
  | some i =>
    obtain ⟨-, hlen, hget⟩ := findIdx?_some_spec mp.endpoints t 0 i hfi
    simp only [Nat.sub_zero] at hlen hget
    show (heapRemove mp.endpoints i).count t = _
    rw [heapRemove_count mp.endpoints i hlen, if_pos hget]

theorem epsByNic_unregister_fst_true (e : endpointsByNic) (nic : NICID) (t : Nat)
    (h : (e.unregisterEndpoint nic t).1 = true) :
    ((e.unregisterEndpoint nic t).2).endpoints.length = 0 := by
  unfold endpointsByNic.unregisterEndpoint at h ⊢
  cases hl : alookup e.endpoints nic with
  | none => simp only [hl] at h; exact absurd h (by simp)
  | some mp =>
    simp only [hl] at h ⊢
    simpa using h

theorem epsByNic_unregister_nicCount (e : endpointsByNic) (nic : NICID) (t : Nat) :
    nicCount (e.unregisterEndpoint nic t).2 nic t = nicCount e nic t - 1 := by
  unfold endpointsByNic.unregisterEndpoint nicCount
  cases hl : alookup e.endpoints nic with
  | none => simp only [hl]
  | some mp =>
    simp only [hl]
    by_cases hp1 : (mp.unregisterEndpoint t).1 = true
    · rw [if_pos hp1]
      simp only [alookup_aremove_self]
      have hc := mp_unregister_count mp t
      have hfst := mp_unregister_fst mp t
      rw [hp1] at hfst
      have hemp : (mp.unregisterEndpoint t).2.endpoints = [] :=
        List.length_eq_zero.mp (by simpa using hfst.symm)
      rw [hemp] at hc
      simp only [List.count_nil] at hc
      exact hc
    · rw [if_neg hp1]
      simp only [alookup_ainsert_self]
      exact mp_unregister_count mp t

theorem eps_unregister_epsCount (eps : transportEndpoints) (id : TransportEndpointID)
    (t : Nat) (nic : NICID) :
    epsCount (eps.unregisterEndpoint id t nic) id t nic = epsCount eps id t nic - 1 := by
  unfold transportEndpoints.unregisterEndpoint epsCount
  cases hie : alookup eps.endpoints id with
  | none => simp only [hie]
  | some e0 =>
    simp only [hie]
    by_cases hp1 : (e0.unregisterEndpoint nic t).1 = true
    · rw [if_pos hp1]
      simp only [alookup_aremove_self]
      have h1 := epsByNic_unregister_nicCount e0 nic t
      have hemp := epsByNic_unregister_fst_true e0 nic t hp1
      have hemp' : ((e0.unregisterEndpoint nic t).2).endpoints = [] :=
        List.length_eq_zero.mp hemp
      rw [show nicCount (e0.unregisterEndpoint nic t).2 nic t = 0 from by
        unfold nicCount
        rw [hemp']
        rfl] at h1
      exact h1
    · rw [if_neg hp1]
      simp only [alookup_ainsert_self]
      exact epsByNic_unregister_nicCount e0 nic t

theorem unregister_nil (d : transportDemuxer) (proto : Nat) (id : TransportEndpointID)
    (t : Nat) (nic : NICID) : d.unregisterEndpoint [] proto id t nic = d := rfl

theorem unregister_cons (d : transportDemuxer) (n : Nat) (rest : List Nat) (proto : Nat)
    (id : TransportEndpointID) (t : Nat) (nic : NICID) :
    d.unregisterEndpoint (n :: rest) proto id t nic =
      (d.unregisterEndpoint [n] proto id t nic).unregisterEndpoint rest proto id t nic := by
  unfold transportDemuxer.unregisterEndpoint
  rw [List.foldl_cons, List.foldl_cons, List.foldl_nil]

theorem protoKey_ne (m n proto : Nat) (h : m ≠ n) :
    (⟨m, proto⟩ : protocolIDs) ≠ ⟨n, proto⟩ :=
  fun hc => h (congrArg protocolIDs.network hc)

theorem unregisterOne_epCount_self (d : transportDemuxer) (n proto : Nat)
    (id : TransportEndpointID) (t : Nat) (nic : NICID) :
    epCount (d.unregisterEndpoint [n] proto id t nic) n proto id t nic =
      epCount d n proto id t nic - 1 := by
  unfold transportDemuxer.unregisterEndpoint
  rw [List.foldl_cons, List.foldl_nil]
  cases hl : alookup d.protocol ⟨n, proto⟩ with
  | none => simp [epCount, hl]
  | some eps =>
    simp only [hl]
    unfold epCount
    simp only [alookup_ainsert_self, hl]
    exact eps_unregister_epsCount eps id t nic

theorem unregisterOne_epCount_other (d : transportDemuxer) (n proto : Nat)
    (id : TransportEndpointID) (t : Nat) (nic : NICID) (m : Nat) (hm : m ≠ n) :
    epCount (d.unregisterEndpoint [n] proto id t nic) m proto id t nic =
      epCount d m proto id t nic := by
  unfold transportDemuxer.unregisterEndpoint
  rw [List.foldl_cons, List.foldl_nil]
  cases hl : alookup d.protocol ⟨n, proto⟩ with
  | none => simp only [hl]
  | some eps =>
    simp only [hl]
    unfold epCount
    rw [alookup_ainsert_ne _ _ _ _ (protoKey_ne m n proto hm)]

theorem unregister_epCount (done : List Nat) (d : transportDemuxer) (proto : Nat)
    (id : TransportEndpointID) (t : Nat) (nic : NICID) (m : Nat) :
    epCount (d.unregisterEndpoint done proto id t nic) m proto id t nic =
      epCount d m proto id t nic - done.count m := by
  induction done generalizing d with
  | nil => simp [unregister_nil]
  | cons n rest ih =>
    rw [unregister_cons, ih]
    by_cases hm : m = n
    · subst hm
      rw [unregisterOne_epCount_self, List.count_cons, if_pos (by simp)]
      omega
    · rw [unregisterOne_epCount_other _ _ _ _ _ _ _ hm, List.count_cons,
        if_neg (by simpa using Ne.symm hm)]
      omega

theorem singleRegister_fail_state (d : transportDemuxer) (np proto : Nat)
    (id : TransportEndpointID) (t : Nat) (rp : Bool) (nic : NICID) (seed : Nat)
    (e : TcpipError)
    (h : (d.singleRegisterEndpoint np proto id t rp nic seed).1 = some e) :
    (d.singleRegisterEndpoint np proto id t rp nic seed).2 = d := by
  unfold transportDemuxer.singleRegisterEndpoint at h ⊢
  cases hl : alookup d.protocol ⟨np, proto⟩ with
  | none => simp only [hl]
  | some eps =>
    simp only [hl] at h ⊢
    unfold endpointsByNic.registerEndpoint at h ⊢
    cases hie : alookup eps.endpoints id with
    | none =>
      simp only [hie, Option.getD_none] at h
      simp only [show alookup (([] : List (NICID × multiPortEndpoint))) nic = none from rfl,
        Option.getD_none] at h
      rw [singleRegister_fst_none_of_empty _ _ _ rfl] at h
      simp at h
    | some e0 =>
      simp only [hie, Option.getD_some] at h ⊢
      cases hin : alookup e0.endpoints nic with
      | none =>
        simp only [hin, Option.getD_none] at h
        rw [singleRegister_fst_none_of_empty _ _ _ rfl] at h
        simp at h
      | some mp0 =>
        simp only [hin, Option.getD_some] at h ⊢
        obtain ⟨hsnd, -⟩ := singleRegister_fail_eps mp0 t _ e h
        rw [hsnd, ainsert_lookup_self _ _ _ hin]
        have hie' : alookup eps.endpoints id = some ⟨e0.endpoints, e0.seed⟩ := hie
        rw [ainsert_lookup_self _ _ _ hie']
        have hl' : alookup d.protocol ⟨np, proto⟩ = some ⟨eps.endpoints⟩ := hl
        rw [ainsert_lookup_self _ _ _ hl']

theorem singleRegister_success_epCount (d : transportDemuxer) (np proto : Nat)
    (id : TransportEndpointID) (t : Nat) (rp : Bool) (nic : NICID) (seed : Nat)
    (h : (d.singleRegisterEndpoint np proto id t rp nic seed).1 = none) :
    epCount (d.singleRegisterEndpoint np proto id t rp nic seed).2 np proto id t nic =
      epCount d np proto id t nic + 1 := by
  unfold transportDemuxer.singleRegisterEndpoint at h ⊢
  cases hl : alookup d.protocol ⟨np, proto⟩ with
  | none =>
    simp only [hl] at h
    exact absurd h (by simp)
  | some eps =>
    simp only [hl] at h ⊢
    unfold endpointsByNic.registerEndpoint at h ⊢
    unfold epCount epsCount nicCount
    simp only [alookup_ainsert_self, hl]
    cases hie : alookup eps.endpoints id with
    | none =>
      simp only [hie, Option.getD_none] at h ⊢
      simp only [show alookup (([] : List (NICID × multiPortEndpoint))) nic = none from rfl,
        Option.getD_none] at h ⊢
      rw [singleRegister_ok_eps _ _ _ h]
      simp only [alookup_ainsert_self]
      rw [heapPush_count, if_pos rfl]
      simp
    | some e0 =>
      simp only [hie, Option.getD_some] at h ⊢
      cases hin : alookup e0.endpoints nic with
      | none =>
        simp only [hin, Option.getD_none] at h ⊢
        rw [singleRegister_ok_eps _ _ _ h]
        simp only [alookup_ainsert_self]
        rw [heapPush_count, if_pos rfl]
        simp
      | some mp0 =>
        simp only [hin, Option.getD_some] at h ⊢
        rw [singleRegister_ok_eps _ _ _ h]
        simp only [alookup_ainsert_self]
        rw [heapPush_count, if_pos rfl]

theorem singleRegister_epCount_other (d : transportDemuxer) (np proto : Nat)
    (id : TransportEndpointID) (t : Nat) (rp : Bool) (nic : NICID) (seed : Nat)
    (m : Nat) (hm : m ≠ np) :
    epCount (d.singleRegisterEndpoint np proto id t rp nic seed).2 m proto id t nic =
      epCount d m proto id t nic := by
  unfold transportDemuxer.singleRegisterEndpoint
  cases hl : alookup d.protocol ⟨np, proto⟩ with
  | none => simp only [hl]
  | some eps =>
    simp only [hl]
    unfold epCount
    rw [alookup_ainsert_ne _ _ _ _ (protoKey_ne m np proto hm)]

theorem registerLoop_rollback (rest : List Nat) (done : List Nat) (d0 d : transportDemuxer)
    (proto : Nat) (id : TransportEndpointID) (t : Nat) (rp : Bool) (nic : NICID)
    (seed : Nat) (e : TcpipError) (d' : transportDemuxer)
    (hinv : ∀ m, epCount d m proto id t nic =
      epCount d0 m proto id t nic + done.count m)
    (hloop : d.registerEndpointLoop done rest proto id t rp nic seed = (some e, d')) :
    ∀ m, epCount d' m proto id t nic = epCount d0 m proto id t nic := by
  induction rest generalizing d done with
  | nil =>
    unfold transportDemuxer.registerEndpointLoop at hloop
    simp at hloop
  | cons n rest' ih =>
    unfold transportDemuxer.registerEndpointLoop at hloop
    cases hp : (d.singleRegisterEndpoint n proto id t rp nic seed).1 with
    | some e0 =>
      simp only [hp] at hloop
      rw [Prod.mk.injEq] at hloop
      obtain ⟨-, hd'⟩ := hloop
      intro m
      rw [← hd', singleRegister_fail_state d n proto id t rp nic seed e0 hp,
        unregister_epCount, hinv m]
      omega
    | none =>
      simp only [hp] at hloop
      refine ih (done ++ [n]) (d.singleRegisterEndpoint n proto id t rp nic seed).2
        ?_ hloop
      intro m
      by_cases hm : m = n
      · subst hm
        rw [singleRegister_success_epCount d m proto id t rp nic seed hp, hinv m]
        simp [List.count_append]
        omega
      · rw [singleRegister_epCount_other d n proto id t rp nic seed m hm, hinv m]
        have hc0 : List.count m [n] = 0 := by
          simp [List.count_singleton', hm]
        simp [List.count_append, hc0]

/-! ## Lemmas: the registry invariant and cleanup -/

theorem epsByNic_unregister_fst_false (e : endpointsByNic) (nic : NICID) (t : Nat)
    (hne : e.endpoints ≠ []) (h : (e.unregisterEndpoint nic t).1 = false) :
    ((e.unregisterEndpoint nic t).2).endpoints ≠ [] := by
  unfold endpointsByNic.unregisterEndpoint at h ⊢
  cases hl : alookup e.endpoints nic with
  | none => exact hne
  | some mp =>
    simp only [hl] at h ⊢
    intro h0
    rw [show (if (mp.unregisterEndpoint t).1 = true then aremove e.endpoints nic
        else ainsert e.endpoints nic (mp.unregisterEndpoint t).2) = [] from h0] at h
    simp at h

theorem epsByNic_unregister_members (e : endpointsByNic) (nic : NICID) (t : Nat)
    (hwf0 : ∀ q ∈ e.endpoints, q.2.endpoints ≠ []) :
    ∀ q ∈ ((e.unregisterEndpoint nic t).2).endpoints, q.2.endpoints ≠ [] := by
  unfold endpointsByNic.unregisterEndpoint
  cases hl : alookup e.endpoints nic with
  | none => exact hwf0
  | some mp =>
    simp only [hl]
    intro q hq
    by_cases hp1 : (mp.unregisterEndpoint t).1 = true
    · rw [if_pos hp1] at hq
      exact hwf0 q (mem_aremove _ _ _ hq)
    · rw [if_neg hp1] at hq
      rcases mem_ainsert _ _ _ q hq with hq' | hq'
      · rw [hq']
        intro h0
        rw [mp_unregister_fst] at hp1
        rw [show (mp.unregisterEndpoint t).2.endpoints = [] from h0] at hp1
        simp at hp1
      · exact hwf0 q hq'

theorem eps_unregister_preserves_WF (eps : transportEndpoints) (id : TransportEndpointID)
    (t : Nat) (nic : NICID) (hwf : registryWF eps) :
    registryWF (eps.unregisterEndpoint id t nic) := by
  unfold transportEndpoints.unregisterEndpoint
  cases hie : alookup eps.endpoints id with
  | none => exact hwf
  | some e0 =>
    simp only [hie]
    have hwfe0 := hwf (id, e0) (alookup_mem _ _ _ hie)
    by_cases hp1 : (e0.unregisterEndpoint nic t).1 = true
    · rw [if_pos hp1]
      intro p hp
      obtain ⟨hne1, hp2⟩ := mem_aremove_ne _ _ _ hp
      rcases mem_ainsert _ _ _ p hp2 with hp3 | hp3
      · exact absurd (congrArg Prod.fst hp3) hne1
      · exact hwf p hp3
    · rw [if_neg hp1]
      intro p hp
      rcases mem_ainsert _ _ _ p hp with hp3 | hp3
      · rw [hp3]
        refine ⟨?_, epsByNic_unregister_members e0 nic t hwfe0.2⟩
        exact epsByNic_unregister_fst_false e0 nic t hwfe0.1
          (Bool.not_eq_true _ ▸ hp1)
      · exact hwf p hp3

theorem unregisterOne_preserves_WF (d : transportDemuxer) (n proto : Nat)
    (id : TransportEndpointID) (t : Nat) (nic : NICID) (hwf : demuxWF d) :
    demuxWF (d.unregisterEndpoint [n] proto id t nic) := by
  unfold transportDemuxer.unregisterEndpoint
  rw [List.foldl_cons, List.foldl_nil]
  cases hl : alookup d.protocol ⟨n, proto⟩ with
  | none => exact hwf
  | some eps =>
    simp only [hl]
    intro pr hpr
    rcases mem_ainsert _ _ _ pr hpr with h1 | h1
    · rw [h1]
      exact eps_unregister_preserves_WF eps id t nic (hwf _ (alookup_mem _ _ _ hl))
    · exact hwf pr h1

theorem unregister_preserves_WF (netProtos : List Nat) (d : transportDemuxer)
    (proto : Nat) (id : TransportEndpointID) (t : Nat) (nic : NICID)
    (hwf : demuxWF d) : demuxWF (d.unregisterEndpoint netProtos proto id t nic) := by
  induction netProtos generalizing d with
  | nil => exact hwf
  | cons n rest ih =>
    rw [unregister_cons]
    exact ih _ (unregisterOne_preserves_WF d n proto id t nic hwf)

theorem singleRegister_preserves_WF (d : transportDemuxer) (np proto : Nat)
    (id : TransportEndpointID) (t : Nat) (rp : Bool) (nic : NICID) (seed : Nat)
    (hwf : demuxWF d) :
    demuxWF (d.singleRegisterEndpoint np proto id t rp nic seed).2 := by
  unfold transportDemuxer.singleRegisterEndpoint
  cases hl : alookup d.protocol ⟨np, proto⟩ with
  | none => exact hwf
  | some eps =>
    simp only [hl]
    intro pr hpr
    rcases mem_ainsert _ _ _ pr hpr with h1 | h1
    · rw [h1]
      intro p hp
      unfold endpointsByNic.registerEndpoint at hp
      rcases mem_ainsert _ _ _ p hp with h2 | h2
      · rw [h2]
        refine ⟨ainsert_ne_nil _ _ _, ?_⟩
        intro q hq
        rcases mem_ainsert _ _ _ q hq with h3 | h3
        · rw [h3]
          exact singleRegister_snd_ne_nil _ _ _
        · cases hie : alookup eps.endpoints id with
          | none =>
            simp only [hie, Option.getD_none] at h3
            simp at h3
          | some e0 =>
            simp only [hie, Option.getD_some] at h3
            exact ((hwf _ (alookup_mem _ _ _ hl)) (id, e0)
              (alookup_mem _ _ _ hie)).2 q h3
      · exact hwf _ (alookup_mem _ _ _ hl) p h2
    · exact hwf pr h1

theorem mp_unregister_singleton (np proto t : Nat) (rp : Bool) :
    (multiPortEndpoint.mk np proto [t] rp).unregisterEndpoint t =
      (true, ⟨np, proto, [], rp⟩) := by
  unfold multiPortEndpoint.unregisterEndpoint
  have hfi : ([t] : List Nat).findIdx? (fun x => x == t) = some 0 := by
    rw [List.findIdx?_cons]
    simp
  simp only [hfi]
  rw [heapRemove_eq_of_eq [t] 0 (by simp)]
  simp

theorem epsByNic_unregister_singleton (np proto t : Nat) (rp : Bool) (nic : NICID)
    (seed : Nat) :
    (endpointsByNic.mk [(nic, ⟨np, proto, [t], rp⟩)] seed).unregisterEndpoint nic t =
      (true, ⟨[], seed⟩) := by
  unfold endpointsByNic.unregisterEndpoint
  have hl : alookup [(nic, (⟨np, proto, [t], rp⟩ : multiPortEndpoint))] nic =
      some ⟨np, proto, [t], rp⟩ := by simp [alookup]
  simp only [hl, mp_unregister_singleton]
  simp [aremove]

theorem singleRegister_fresh_id (d : transportDemuxer) (np proto : Nat)
    (id : TransportEndpointID) (t : Nat) (rp : Bool) (nic : NICID) (seed : Nat)
    (eps : transportEndpoints)
    (heps : alookup d.protocol ⟨np, proto⟩ = some eps)
    (hid : alookup eps.endpoints id = none) :
    d.singleRegisterEndpoint np proto id t rp nic seed =
      (none,
       { d with protocol :=
           (ainsert d.protocol ⟨np, proto⟩
             ⟨ainsert eps.endpoints id
               ⟨[(nic, ⟨np, proto, [t],
                   if id.remotePort ≠ 0 then false else rp⟩)], seed⟩⟩) }) := by
  unfold transportDemuxer.singleRegisterEndpoint
  simp only [heps, hid, Option.getD_none]
  unfold endpointsByNic.registerEndpoint
  simp only [show alookup (([] : List (NICID × multiPortEndpoint))) nic = none from rfl,
    Option.getD_none]
  rw [singleRegister_fst_none_of_empty _ _ _ rfl]
  have hp : heapPush ([] : List Nat) t = [t] := by
    unfold heapPush
    simp [heapUp]
  rw [hp]
  simp [ainsert]

theorem cleanup_scenario (d : transportDemuxer) (np proto : Nat) (id : TransportEndpointID)
    (t t2 : Nat) (rp : Bool) (nic : NICID) (seed seed2 : Nat) (eps : transportEndpoints)
    (heps : alookup d.protocol ⟨np, proto⟩ = some eps)
    (hid : alookup eps.endpoints id = none) :
    (d.singleRegisterEndpoint np proto id t rp nic seed).1 = none ∧
    (∃ eps2,
      alookup ((d.singleRegisterEndpoint np proto id t rp nic seed).2.unregisterEndpoint
          [np] proto id t nic).protocol ⟨np, proto⟩ = some eps2 ∧
      alookup eps2.endpoints id = none) ∧
    (((d.singleRegisterEndpoint np proto id t rp nic seed).2.unregisterEndpoint
        [np] proto id t nic).singleRegisterEndpoint np proto id t2 false nic seed2).1 =
      none := by
  have hreg := singleRegister_fresh_id d np proto id t rp nic seed eps heps hid
  rw [hreg]
  set MP1 : multiPortEndpoint :=
    ⟨np, proto, [t], if id.remotePort ≠ 0 then false else rp⟩ with hMP1
  set E1 : endpointsByNic := ⟨[(nic, MP1)], seed⟩ with hE1
  set EPS1 : transportEndpoints := ⟨ainsert eps.endpoints id E1⟩ with hEPS1
  set D1 : transportDemuxer :=
    { d with protocol := ainsert d.protocol ⟨np, proto⟩ EPS1 } with hD1
  have hlook1 : alookup D1.protocol ⟨np, proto⟩ = some EPS1 := by
    show alookup (ainsert d.protocol ⟨np, proto⟩ EPS1) ⟨np, proto⟩ = some EPS1
    exact alookup_ainsert_self _ _ _
  have hlook2 : alookup EPS1.endpoints id = some E1 := by
    show alookup (ainsert eps.endpoints id E1) id = some E1
    exact alookup_ainsert_self _ _ _
  have heu : EPS1.unregisterEndpoint id t nic =
      ⟨aremove (ainsert EPS1.endpoints id ⟨[], seed⟩) id⟩ := by
    unfold transportEndpoints.unregisterEndpoint
    simp only [hlook2]
    rw [hE1, hMP1]
    simp only [epsByNic_unregister_singleton]
    simp
  have hun : D1.unregisterEndpoint [np] proto id t nic =
      { D1 with protocol :=
          (ainsert D1.protocol ⟨np, proto⟩
            ⟨aremove (ainsert EPS1.endpoints id ⟨[], seed⟩) id⟩) } := by
    unfold transportDemuxer.unregisterEndpoint
    rw [List.foldl_cons, List.foldl_nil]
    simp only [hlook1, heu]
  refine ⟨rfl, ?_, ?_⟩
  · show ∃ eps2,
      alookup ((D1.unregisterEndpoint [np] proto id t nic).protocol) ⟨np, proto⟩ =
        some eps2 ∧ alookup eps2.endpoints id = none
    rw [hun]
    refine ⟨⟨aremove (ainsert EPS1.endpoints id ⟨[], seed⟩) id⟩, ?_, ?_⟩
    · show alookup (ainsert D1.protocol ⟨np, proto⟩
          ⟨aremove (ainsert EPS1.endpoints id ⟨[], seed⟩) id⟩) ⟨np, proto⟩ = _
      exact alookup_ainsert_self _ _ _
    · show alookup (aremove (ainsert EPS1.endpoints id ⟨[], seed⟩) id) id = none
      exact alookup_aremove_self _ _
  · show ((D1.unregisterEndpoint [np] proto id t nic).singleRegisterEndpoint np proto id
      t2 false nic seed2).1 = none
    rw [hun]
    rw [singleRegister_fresh_id _ np proto id t2 false nic seed2
      ⟨aremove (ainsert EPS1.endpoints id ⟨[], seed⟩) id⟩
      (by
        show alookup (ainsert D1.protocol ⟨np, proto⟩
            ⟨aremove (ainsert EPS1.endpoints id ⟨[], seed⟩) id⟩) ⟨np, proto⟩ = _
        exact alookup_ainsert_self _ _ _)
      (by
        show alookup (aremove (ainsert EPS1.endpoints id ⟨[], seed⟩) id) id = none
        exact alookup_aremove_self _ _)]

/-! ## Lemmas: fan-out delivery -/

theorem concatMap_append {α β : Type} (f : α → List β) (l1 l2 : List α) :
    concatMap f (l1 ++ l2) = concatMap f l1 ++ concatMap f l2 := by
  induction l1 with
  | nil => rfl
  | cons a t ih => simp [concatMap, ih]

theorem map_concatMap {α β γ : Type} (f : α → List β) (g : β → γ) (l : List α) :
    (concatMap f l).map g = concatMap (fun x => (f x).map g) l := by
  induction l with
  | nil => rfl
  | cons a t ih => simp [concatMap, ih]

theorem mem_concatMap {α β : Type} (f : α → List β) (l : List α) (b : β) :
    b ∈ concatMap f l ↔ ∃ a ∈ l, b ∈ f a := by
  induction l with
  | nil => simp [concatMap]
  | cons a t ih =>
    simp only [concatMap, List.mem_append, ih, List.mem_cons]
    constructor
    · rintro (h | ⟨a', ha', hb⟩)
      · exact ⟨a, Or.inl rfl, h⟩
      · exact ⟨a', Or.inr ha', hb⟩
    · rintro ⟨a', ha' | ha', hb⟩
      · subst ha'; exact Or.inl hb
      · exact Or.inr ⟨a', ha', hb⟩

theorem handlePacketAll_map_ep (mp : multiPortEndpoint) (q : List protocolIDs)
    (id : TransportEndpointID) (p : Nat) :
    (mp.handlePacketAll q id p).map (fun dl => dl.ep) = mp.endpoints := by
  unfold multiPortEndpoint.handlePacketAll
  cases hl : mp.endpoints.getLast? with
  | none =>
    have h0 : mp.endpoints = [] := List.getLast?_eq_none_iff.mp hl
    simp [h0]
  | some x =>
    have hne : mp.endpoints ≠ [] := by
      intro h0
      rw [h0] at hl
      simp at hl
    have hx : x = mp.endpoints.getLast hne := by
      have h2 := List.getLast?_eq_getLast mp.endpoints hne
      rw [hl] at h2
      exact Option.some_injective _ h2
    have hsplit : mp.endpoints.dropLast ++ [x] = mp.endpoints := by
      rw [hx]
      exact List.dropLast_append_getLast hne
    conv_rhs => rw [← hsplit]
    simp [Function.comp_def]

theorem handlePacketAll_mem (mp : multiPortEndpoint) (q : List protocolIDs)
    (id : TransportEndpointID) (p : Nat) (dl : Delivery)
    (h : dl ∈ mp.handlePacketAll q id p) :
    (dl.pkt = p ∨ dl.pkt = p + 1) ∧ dl.id = id := by
  unfold multiPortEndpoint.handlePacketAll at h
  rw [List.mem_append] at h
  rcases h with h | h
  · rw [List.mem_map] at h
    obtain ⟨t, -, rfl⟩ := h
    exact ⟨Or.inr rfl, rfl⟩
  · cases hl : mp.endpoints.getLast? with
    | none =>
      rw [hl] at h
      simp at h
    | some x =>
      rw [hl] at h
      simp only [List.mem_singleton] at h
      subst h
      exact ⟨Or.inl rfl, rfl⟩

theorem handlePacketAll_dropLast_pkt (mp : multiPortEndpoint) (q : List protocolIDs)
    (id : TransportEndpointID) (p : Nat) (dl : Delivery)
    (h : dl ∈ (mp.handlePacketAll q id p).dropLast) : dl.pkt = p + 1 := by
  unfold multiPortEndpoint.handlePacketAll at h
  cases hl : mp.endpoints.getLast? with
  | none =>
    rw [hl, List.append_nil] at h
    have h2 := List.dropLast_subset _ h
    rw [List.mem_map] at h2
    obtain ⟨t, -, rfl⟩ := h2
    rfl
  | some x =>
    rw [hl, List.dropLast_append_of_ne_nil _ (by simp)] at h
    simp only [List.dropLast_single, List.append_nil, List.mem_map] at h
    obtain ⟨t, -, rfl⟩ := h
    rfl

theorem handlePacketAll_getLast_pkt (mp : multiPortEndpoint) (q : List protocolIDs)
    (id : TransportEndpointID) (p : Nat) (hne : mp.endpoints ≠ []) :
    (mp.handlePacketAll q id p).getLast?.map (fun dl => dl.pkt) = some p := by
  unfold multiPortEndpoint.handlePacketAll
  cases hl : mp.endpoints.getLast? with
  | none => exact absurd (List.getLast?_eq_none_iff.mp hl) hne
  | some x => rw [List.getLast?_concat]; rfl

theorem handlePacket_mc_map_ep (e : endpointsByNic) (q : List protocolIDs) (r : Route)
    (id : TransportEndpointID) (p : Nat)
    (hmc : isMulticastOrBroadcast id.localAddress = true) :
    (e.handlePacket q r id p).map (fun dl => dl.ep) =
      (match resolveMpep e r.nic with
       | some mp => mp.endpoints
       | none => []) := by
  unfold endpointsByNic.handlePacket
  cases hres : resolveMpep e r.nic with
  | none => rfl
  | some mp => simp [hmc, handlePacketAll_map_ep]

theorem handlePacket_mem (e : endpointsByNic) (q : List protocolIDs) (r : Route)
    (id : TransportEndpointID) (p : Nat) (dl : Delivery)
    (h : dl ∈ e.handlePacket q r id p) :
    (dl.pkt = p ∨ dl.pkt = p + 1) ∧ dl.id = id := by
  unfold endpointsByNic.handlePacket at h
  cases hres : resolveMpep e r.nic with
  | none => rw [hres] at h; simp at h
  | some mp =>
    simp only [hres] at h
    by_cases hmc : isMulticastOrBroadcast id.localAddress = true
    · rw [if_pos hmc] at h
      exact handlePacketAll_mem mp q id p dl h
    · rw [if_neg hmc] at h
      simp only [List.mem_singleton] at h
      subst h
      exact ⟨Or.inl rfl, rfl⟩

theorem handlePacket_mc_dropLast_pkt (e : endpointsByNic) (q : List protocolIDs) (r : Route)
    (id : TransportEndpointID) (p : Nat) (dl : Delivery)
    (hmc : isMulticastOrBroadcast id.localAddress = true)
    (h : dl ∈ (e.handlePacket q r id p).dropLast) : dl.pkt = p + 1 := by
  unfold endpointsByNic.handlePacket at h
  cases hres : resolveMpep e r.nic with
  | none => rw [hres] at h; simp at h
  | some mp =>
    simp only [hres] at h
    rw [if_pos hmc] at h
    exact handlePacketAll_dropLast_pkt mp q id p dl h

theorem handlePacket_mc_getLast_pkt (e : endpointsByNic) (q : List protocolIDs) (r : Route)
    (id : TransportEndpointID) (p : Nat) (mp : multiPortEndpoint)
    (hmc : isMulticastOrBroadcast id.localAddress = true)
    (hres : resolveMpep e r.nic = some mp) (hne : mp.endpoints ≠ []) :
    (e.handlePacket q r id p).getLast?.map (fun dl => dl.pkt) = some p := by
  unfold endpointsByNic.handlePacket
  simp only [hres]
  rw [if_pos hmc]
  exact handlePacketAll_getLast_pkt mp q id p hne

theorem handlePacket_mc_ne_nil (e : endpointsByNic) (q : List protocolIDs) (r : Route)
    (id : TransportEndpointID) (p : Nat) (mp : multiPortEndpoint)
    (hmc : isMulticastOrBroadcast id.localAddress = true)
    (hres : resolveMpep e r.nic = some mp) (hne : mp.endpoints ≠ []) :
    e.handlePacket q r id p ≠ [] := by
  intro h0
  have h1 := handlePacket_mc_getLast_pkt e q r id p mp hmc hres hne
  rw [h0] at h1
  simp at h1

theorem deliverPacket_mc_empty (d : transportDemuxer) (r : Route) (pkt : Nat)
    (id : TransportEndpointID) (stats : Stats) (eps : transportEndpoints)
    (heps : alookup d.protocol ⟨r.netProto, UDPProtocolNumber⟩ = some eps)
    (hmc : isMulticastOrBroadcast id.localAddress = true)
    (hempty : findAllEndpointsLocked eps id = []) :
    d.deliverPacket r UDPProtocolNumber pkt id stats =
      ⟨false, [],
       { stats with udpUnknownPortErrors := stats.udpUnknownPortErrors + 1 }⟩ := by
  unfold transportDemuxer.deliverPacket
  simp only [heps]
  rw [if_pos ⟨by decide, hmc⟩, if_pos (by rw [hempty]; rfl)]

theorem deliverPacket_mc_eq (d : transportDemuxer) (r : Route) (pkt : Nat)
    (id : TransportEndpointID) (stats : Stats) (eps : transportEndpoints)
    (heps : alookup d.protocol ⟨r.netProto, UDPProtocolNumber⟩ = some eps)
    (hmc : isMulticastOrBroadcast id.localAddress = true)
    (hne : findAllEndpointsLocked eps id ≠ []) :
    d.deliverPacket r UDPProtocolNumber pkt id stats =
      ⟨true,
       concatMap (fun e => e.handlePacket d.queuedProtocols r id (pkt + 1))
           (findAllEndpointsLocked eps id).dropLast ++
         ((findAllEndpointsLocked eps id).getLast hne).handlePacket d.queuedProtocols r
           id pkt,
       stats⟩ := by
  unfold transportDemuxer.deliverPacket
  simp only [heps]
  rw [if_pos ⟨by decide, hmc⟩, if_neg (fun hc => hne (List.length_eq_zero.mp hc)),
    List.getLast?_eq_getLast _ hne]

theorem deliverPacket_mc_handled (d : transportDemuxer) (r : Route) (pkt : Nat)
    (id : TransportEndpointID) (stats : Stats) (eps : transportEndpoints)
    (heps : alookup d.protocol ⟨r.netProto, UDPProtocolNumber⟩ = some eps)
    (hmc : isMulticastOrBroadcast id.localAddress = true)
    (hne : findAllEndpointsLocked eps id ≠ []) :
    (d.deliverPacket r UDPProtocolNumber pkt id stats).handled = true := by
  rw [deliverPacket_mc_eq d r pkt id stats eps heps hmc hne]

theorem deliverPacket_mc_stats (d : transportDemuxer) (r : Route) (pkt : Nat)
    (id : TransportEndpointID) (stats : Stats) (eps : transportEndpoints)
    (heps : alookup d.protocol ⟨r.netProto, UDPProtocolNumber⟩ = some eps)
    (hmc : isMulticastOrBroadcast id.localAddress = true)
    (hne : findAllEndpointsLocked eps id ≠ []) :
    (d.deliverPacket r UDPProtocolNumber pkt id stats).stats = stats := by
  rw [deliverPacket_mc_eq d r pkt id stats eps heps hmc hne]

theorem deliverPacket_mc_deliveries (d : transportDemuxer) (r : Route) (pkt : Nat)
    (id : TransportEndpointID) (stats : Stats) (eps : transportEndpoints)
    (heps : alookup d.protocol ⟨r.netProto, UDPProtocolNumber⟩ = some eps)
    (hmc : isMulticastOrBroadcast id.localAddress = true)
    (hne : findAllEndpointsLocked eps id ≠ []) :
    (d.deliverPacket r UDPProtocolNumber pkt id stats).deliveries =
      concatMap (fun e => e.handlePacket d.queuedProtocols r id (pkt + 1))
          (findAllEndpointsLocked eps id).dropLast ++
        ((findAllEndpointsLocked eps id).getLast hne).handlePacket d.queuedProtocols r
          id pkt := by
  rw [deliverPacket_mc_eq d r pkt id stats eps heps hmc hne]

/-! ## Claims -/

/-- Claim C8: for every registration whose id has `remotePort ≠ 0`, port
reuse is forced off: `singleRegisterEndpoint` behaves exactly as if the
caller had passed `reusePort = false`, so a connected-style socket never
joins a reuse group. -/
theorem remotePort_pins_reuse_off (d : transportDemuxer) (netProto protocol : Nat)
    (id : TransportEndpointID) (ep : Nat) (reusePort : Bool) (bindToDevice : NICID)
    (freshSeed : Nat) (h : id.remotePort ≠ 0) :
    d.singleRegisterEndpoint netProto protocol id ep reusePort bindToDevice freshSeed =
      d.singleRegisterEndpoint netProto protocol id ep false bindToDevice freshSeed := by
  unfold transportDemuxer.singleRegisterEndpoint
  rw [if_pos h, if_pos h]

/-- Witness for C8: a concrete connected-style registration (remote port 99)
with `reusePort = true` behaves as with `reusePort = false`. -/
theorem remotePort_pins_reuse_off_witness :
    (⟨80, [10, 0, 0, 1], 99, [10, 0, 0, 2]⟩ : TransportEndpointID).remotePort ≠ 0 ∧
      (transportDemuxer.mk [(⟨1, 17⟩, ⟨[]⟩)] []).singleRegisterEndpoint 1 17
          ⟨80, [10, 0, 0, 1], 99, [10, 0, 0, 2]⟩ 5 true 0 7 =
        (transportDemuxer.mk [(⟨1, 17⟩, ⟨[]⟩)] []).singleRegisterEndpoint 1 17
          ⟨80, [10, 0, 0, 1], 99, [10, 0, 0, 2]⟩ 5 false 0 7 :=
  ⟨by decide,
   remotePort_pins_reuse_off (transportDemuxer.mk [(⟨1, 17⟩, ⟨[]⟩)] []) 1 17
     ⟨80, [10, 0, 0, 1], 99, [10, 0, 0, 2]⟩ 5 true 0 7 (by decide)⟩

/-- Claim C4: adding to a MultiEndpointSet succeeds unconditionally when the
set is empty; when non-empty it succeeds iff both the set's own `reuse` flag
and the caller's `reusePort` are true, and otherwise fails with `PortInUse`
leaving the set unchanged; hence registering two endpoints with identical
(id, nic) fails the second with `PortInUse` when reuse is disabled on
either, and succeeds for both when reuse is enabled on both. -/
theorem multiPortEndpoint_add_reuse (ep : multiPortEndpoint) (t : Nat) (rp : Bool) :
    (ep.endpoints = [] →
      ep.singleRegisterEndpoint t rp =
        (none, { ep with endpoints := heapPush ep.endpoints t })) ∧
    (ep.endpoints ≠ [] →
      ((ep.singleRegisterEndpoint t rp).1 = none ↔ ep.reuse = true ∧ rp = true)) ∧
    (ep.endpoints ≠ [] → (ep.reuse = false ∨ rp = false) →
      ep.singleRegisterEndpoint t rp = (some .PortInUse, ep)) ∧
    (∀ (s nic np tp t1 t2 : Nat) (r1 r2 : Bool),
      ((endpointsByNic.mk [] s).registerEndpoint np tp t1 r1 nic).1 = none ∧
        ((((endpointsByNic.mk [] s).registerEndpoint np tp t1 r1 nic).2.registerEndpoint
              np tp t2 r2 nic).1 = none ↔ r1 = true ∧ r2 = true)) := by
  refine ⟨?_, ?_, ?_, ?_⟩
  · intro h
    unfold multiPortEndpoint.singleRegisterEndpoint
    rw [if_neg (by simp [h])]
  · intro h
    cases hre : ep.reuse <;> cases hrp : rp <;>
      simp [multiPortEndpoint.singleRegisterEndpoint, h, hre, hrp]
  · intro h hor
    unfold multiPortEndpoint.singleRegisterEndpoint
    rw [if_pos ⟨by simp [h], hor⟩]
  · intro s nic np tp t1 t2 r1 r2
    constructor
    · simp [endpointsByNic.registerEndpoint, alookup,
        multiPortEndpoint.singleRegisterEndpoint]
    · cases r1 <;> cases r2 <;>
        simp [endpointsByNic.registerEndpoint, alookup, ainsert,
          multiPortEndpoint.singleRegisterEndpoint, heapPush, heapUp]

/-- Witness for C4: a concrete non-empty set with reuse disabled rejects a
second member with `PortInUse` and is left unchanged, while a fresh group
accepts two members when both registrations enable reuse. -/
theorem multiPortEndpoint_add_reuse_witness :
    (multiPortEndpoint.mk 1 17 [5] false).singleRegisterEndpoint 9 true =
        (some .PortInUse, multiPortEndpoint.mk 1 17 [5] false) ∧
      ((((endpointsByNic.mk [] 3).registerEndpoint 1 17 5 true 0).2.registerEndpoint
            1 17 9 true 0).1 = none ↔ true = true ∧ true = true) :=
  ⟨(multiPortEndpoint_add_reuse (multiPortEndpoint.mk 1 17 [5] false) 9 true).2.2.1
      (by decide) (Or.inl rfl),
   ((multiPortEndpoint_add_reuse (multiPortEndpoint.mk 1 17 [5] false) 9 true).2.2.2
      3 0 1 17 5 9 true true).2⟩

/-- Claim C3: `findBestMatch` probes, in this exact order, (1) the exact
four-tuple, (2) the local address wildcarded, (3) the remote address and
port wildcarded, (4) only the local port, and returns the first tier that
has an entry, stopping there; hence an entry registered under the exact
inbound id always wins, and the fully wildcarded entry is returned only
when the three more specific tiers are all absent. -/
theorem findEndpoint_tier_order (eps : transportEndpoints) (id : TransportEndpointID) :
    (findEndpointLocked eps id =
      ((alookup eps.endpoints id).orElse fun _ =>
        ((alookup eps.endpoints { id with localAddress := [] }).orElse fun _ =>
          ((alookup eps.endpoints { id with remoteAddress := [], remotePort := 0 }).orElse
            fun _ =>
            alookup eps.endpoints
              { id with localAddress := [], remoteAddress := [], remotePort := 0 })))) ∧
    (∀ g, alookup eps.endpoints id = some g → findEndpointLocked eps id = some g) ∧
    (∀ g, findEndpointLocked eps id = some g →
      alookup eps.endpoints id = none →
      alookup eps.endpoints { id with localAddress := [] } = none →
      alookup eps.endpoints { id with remoteAddress := [], remotePort := 0 } = none →
      alookup eps.endpoints
        { id with localAddress := [], remoteAddress := [], remotePort := 0 } = some g) := by
  unfold findEndpointLocked findAllEndpointsLocked tierKeys
  cases h1 : alookup eps.endpoints id <;>
    cases h2 : alookup eps.endpoints { id with localAddress := [] } <;>
      cases h3 : alookup eps.endpoints { id with remoteAddress := [], remotePort := 0 } <;>
        cases h4 : alookup eps.endpoints
            { id with localAddress := [], remoteAddress := [], remotePort := 0 } <;>
          simp [List.filterMap_cons, h1, h2, h3, h4, Option.orElse]

/-- Witness for C3: with both an exact entry (distinguished by seed 1) and a
local-wildcard entry (seed 2) registered, the exact entry is returned. -/
theorem findEndpoint_tier_order_witness :
    findEndpointLocked
        (transportEndpoints.mk
          [(⟨53, [10, 0, 0, 1], 0, []⟩, ⟨[], 1⟩), (⟨53, [], 0, []⟩, ⟨[], 2⟩)])
        ⟨53, [10, 0, 0, 1], 0, []⟩ = some ⟨[], 1⟩ :=
  (findEndpoint_tier_order
      (transportEndpoints.mk
        [(⟨53, [10, 0, 0, 1], 0, []⟩, ⟨[], 1⟩), (⟨53, [], 0, []⟩, ⟨[], 2⟩)])
      ⟨53, [10, 0, 0, 1], 0, []⟩).2.1 ⟨[], 1⟩ (by decide)

/-- Claim C7: a TCP packet whose route source or destination address is not
plain unicast (any-address, broadcast, or multicast) is dropped without any
endpoint invocation: `deliverPacket` delivers nothing, increments the TCP
InvalidSegmentsReceived counter by exactly 1, and returns true. -/
theorem tcp_nonunicast_drop (d : transportDemuxer) (r : Route) (pkt : Nat)
    (id : TransportEndpointID) (stats : Stats) (eps : transportEndpoints)
    (heps : alookup d.protocol ⟨r.netProto, TCPProtocolNumber⟩ = some eps)
    (hu : isUnicast r.localAddress = false ∨ isUnicast r.remoteAddress = false) :
    d.deliverPacket r TCPProtocolNumber pkt id stats =
      ⟨true, [],
       { stats with tcpInvalidSegmentsReceived := stats.tcpInvalidSegmentsReceived + 1 }⟩ := by
  unfold transportDemuxer.deliverPacket
  simp only [heps]
  rw [if_neg (by rintro ⟨hc, -⟩; exact absurd hc (by decide))]
  rw [if_pos ⟨by decide, hu⟩]

/-- Witness for C7 (the spec's scenario): a TCP endpoint is registered on
0.0.0.0:80 and a packet addressed to 255.255.255.255:80 arrives — nothing
is delivered, the invalid-segment counter goes from 0 to 1, and the packet
is reported handled. -/
theorem tcp_nonunicast_drop_witness :
    (transportDemuxer.mk
          [(⟨1, TCPProtocolNumber⟩,
            ⟨[(⟨80, [], 0, []⟩, ⟨[(0, ⟨1, TCPProtocolNumber, [5], false⟩)], 3⟩)]⟩)] []).deliverPacket
        ⟨[255, 255, 255, 255], [10, 0, 0, 9], 1, 0⟩ TCPProtocolNumber 0
        ⟨80, [255, 255, 255, 255], 99, [10, 0, 0, 9]⟩ ⟨0, 0⟩ =
      ⟨true, [], ⟨0, 1⟩⟩ :=
  tcp_nonunicast_drop
    (transportDemuxer.mk
      [(⟨1, TCPProtocolNumber⟩,
        ⟨[(⟨80, [], 0, []⟩, ⟨[(0, ⟨1, TCPProtocolNumber, [5], false⟩)], 3⟩)]⟩)] [])
    ⟨[255, 255, 255, 255], [10, 0, 0, 9], 1, 0⟩ 0
    ⟨80, [255, 255, 255, 255], 99, [10, 0, 0, 9]⟩ ⟨0, 0⟩
    ⟨[(⟨80, [], 0, []⟩, ⟨[(0, ⟨1, TCPProtocolNumber, [5], false⟩)], 3⟩)]⟩
    (by decide) (Or.inl (by decide))

/-- Claim C6: `selectEndpoint` returns the single member when exactly one
member exists; otherwise it computes the 32-bit seeded incremental hash of,
in order, localPort (2 bytes little-endian), remotePort (2 bytes
little-endian), the localAddress bytes, and the remoteAddress bytes, and
returns the member at index `(hash * memberCount) >> 32`; in every case the
result is a member of the set, and — the function being deterministic in
`(id, seed, members)` — repeated deliveries of a fixed flow against fixed
membership always select the same member. -/
theorem selectEndpoint_spec (id : TransportEndpointID) (mpep : multiPortEndpoint)
    (seed : Nat) (hne : mpep.endpoints ≠ []) :
    (mpep.endpoints.length = 1 → selectEndpoint id mpep seed = lget mpep.endpoints 0) ∧
    (mpep.endpoints.length ≠ 1 →
      selectEndpoint id mpep seed =
        lget mpep.endpoints
          (reciprocalScale
            (jenkinsSum32
              (jenkinsWrite seed (portPayload id ++ id.localAddress ++ id.remoteAddress)))
            mpep.endpoints.length)) ∧
    selectEndpoint id mpep seed ∈ mpep.endpoints := by
  have hlen : 0 < mpep.endpoints.length := List.length_pos.mpr hne
  have hsel : mpep.endpoints.length ≠ 1 →
      selectEndpoint id mpep seed =
        lget mpep.endpoints
          (reciprocalScale
            (jenkinsSum32
              (jenkinsWrite seed (portPayload id ++ id.localAddress ++ id.remoteAddress)))
            mpep.endpoints.length) := by
    intro h1
    unfold selectEndpoint
    rw [if_neg h1, jenkinsWrite_append, jenkinsWrite_append]
  have hidx : ∀ v : Nat, reciprocalScale v mpep.endpoints.length < mpep.endpoints.length := by
    intro v
    unfold reciprocalScale
    by_cases hz : mpep.endpoints.length % 2 ^ 32 = 0
    · rw [hz, Nat.mul_zero, Nat.zero_div]
      exact hlen
    · have h1 : v % 2 ^ 32 * (mpep.endpoints.length % 2 ^ 32) / 2 ^ 32
          < mpep.endpoints.length % 2 ^ 32 := by
        rw [Nat.div_lt_iff_lt_mul (by norm_num : (0:Nat) < 2 ^ 32),
          Nat.mul_comm (mpep.endpoints.length % 2 ^ 32) (2 ^ 32)]
        exact Nat.mul_lt_mul_of_pos_right (Nat.mod_lt _ (by norm_num))
          (Nat.pos_of_ne_zero hz)
      exact Nat.lt_of_lt_of_le h1 (Nat.mod_le _ _)
  refine ⟨?_, hsel, ?_⟩
  · intro h1
    unfold selectEndpoint
    rw [if_pos h1]
  · by_cases h1 : mpep.endpoints.length = 1
    · have : selectEndpoint id mpep seed = lget mpep.endpoints 0 := by
        unfold selectEndpoint
        rw [if_pos h1]
      rw [this, lget, List.getD_eq_getElem _ _ (by omega)]
      exact List.getElem_mem _
    · rw [hsel h1, lget, List.getD_eq_getElem _ _ (hidx _)]
      exact List.getElem_mem _

/-- Witness for C6: a concrete two-member reuse group, flow tuple, and seed;
the hash-and-scale formula picks the member at the computed index, which is
a member of the set. -/
theorem selectEndpoint_spec_witness :
    selectEndpoint ⟨80, [10, 0, 0, 1], 1234, [192, 168, 0, 1]⟩
        (multiPortEndpoint.mk 1 17 [4, 9] true) 1 =
      lget [4, 9]
        (reciprocalScale
          (jenkinsSum32
            (jenkinsWrite 1
              (portPayload ⟨80, [10, 0, 0, 1], 1234, [192, 168, 0, 1]⟩ ++
                [10, 0, 0, 1] ++ [192, 168, 0, 1])))
          2) ∧
    selectEndpoint ⟨80, [10, 0, 0, 1], 1234, [192, 168, 0, 1]⟩
        (multiPortEndpoint.mk 1 17 [4, 9] true) 1 ∈ [4, 9] :=
  ⟨(selectEndpoint_spec ⟨80, [10, 0, 0, 1], 1234, [192, 168, 0, 1]⟩
      (multiPortEndpoint.mk 1 17 [4, 9] true) 1 (by decide)).2.1 (by decide),
   (selectEndpoint_spec ⟨80, [10, 0, 0, 1], 1234, [192, 168, 0, 1]⟩
      (multiPortEndpoint.mk 1 17 [4, 9] true) 1 (by decide)).2.2⟩

/-- Counterexample for C2: the claim that iteration order and the member
chosen by `select` are independent of registration order is false. The
member collections reached by registering the distinct uniqueIDs 1, 2, 3 in
the orders [1, 2, 3] and [1, 3, 2] are both valid binary heaps but have
different array layouts ([1, 2, 3] versus [1, 3, 2]), so fan-out iteration
(`handlePacketAll`) visits members in different orders and `selectEndpoint`
picks different members (3 versus 2) for the same flow tuple and seed. -/
theorem heap_order_dependent_counterexample :
    ([1, 2, 3] : List Nat).Perm [1, 3, 2] ∧
    heapOfList [1, 2, 3] ≠ heapOfList [1, 3, 2] ∧
    selectEndpoint ⟨80, [10, 0, 0, 1], 1234, [192, 168, 0, 1]⟩
        (multiPortEndpoint.mk 1 17 (heapOfList [1, 2, 3]) true) 1 ≠
      selectEndpoint ⟨80, [10, 0, 0, 1], 1234, [192, 168, 0, 1]⟩
        (multiPortEndpoint.mk 1 17 (heapOfList [1, 3, 2]) true) 1 ∧
    (multiPortEndpoint.mk 1 17 (heapOfList [1, 2, 3]) true).handlePacketAll []
        ⟨53, [224, 0, 0, 1], 0, []⟩ 0 ≠
      (multiPortEndpoint.mk 1 17 (heapOfList [1, 3, 2]) true).handlePacketAll []
        ⟨53, [224, 0, 0, 1], 0, []⟩ 0 := by
  have h1 : heapOfList [1, 2, 3] = [1, 2, 3] := by
    simp [heapOfList, heapPush, heapUp, lswap, lget]
  have h2 : heapOfList [1, 3, 2] = [1, 3, 2] := by
    simp [heapOfList, heapPush, heapUp, lswap, lget]
  refine ⟨by decide, ?_, ?_, ?_⟩
  · rw [h1, h2]; decide
  · rw [h1, h2]; decide
  · rw [h1, h2]; decide

/-- Claim C2 (amended): members are stored in a binary heap ordered by
uniqueID, so the member multiset (membership and size) after a registration
sequence is independent of the registration order, and iteration order and
selection are deterministic functions of the stored array; but the array
layout itself — hence fan-out iteration order and the member chosen by
`select` — can depend on the registration order once the set has three or
more members. -/
theorem heap_membership_order_independent (ts1 ts2 : List Nat) (h : ts1.Perm ts2) :
    (heapOfList ts1).Perm (heapOfList ts2) ∧ (heapOfList ts1).length = ts1.length :=
  ⟨(heapOfList_perm ts1).trans (h.trans (heapOfList_perm ts2).symm),
   (heapOfList_perm ts1).length_eq⟩

/-- Witness for C2 (amended): two concrete registration orders of the same
three members yield heaps with the same member multiset and size. -/
theorem heap_membership_order_independent_witness :
    (heapOfList [1, 2, 3]).Perm (heapOfList [3, 2, 1]) ∧
      (heapOfList [1, 2, 3]).length = 3 :=
  heap_membership_order_independent [1, 2, 3] [3, 2, 1] (by decide)

/-- Claim C9: register and unregister preserve the registry invariant — an
EndpointID entry exists iff it has at least one live per-NIC group, which
exists iff its MultiEndpointSet has at least one live member; and the
cleanup scenario holds: registering endpoint E on a previously absent
(id, nic) succeeds, unregistering it leaves the EndpointID entry absent
from the registry, and re-registering the same id with reuse disabled on a
fresh endpoint succeeds, proving no stale state remains. -/
theorem registry_invariant_and_cleanup :
    (∀ (d : transportDemuxer) (np proto : Nat) (id : TransportEndpointID) (t : Nat)
      (rp : Bool) (nic : NICID) (seed : Nat), demuxWF d →
      demuxWF (d.singleRegisterEndpoint np proto id t rp nic seed).2) ∧
    (∀ (d : transportDemuxer) (netProtos : List Nat) (proto : Nat)
      (id : TransportEndpointID) (t : Nat) (nic : NICID), demuxWF d →
      demuxWF (d.unregisterEndpoint netProtos proto id t nic)) ∧
    (∀ (d : transportDemuxer) (np proto : Nat) (id : TransportEndpointID)
      (t t2 : Nat) (rp : Bool) (nic : NICID) (seed seed2 : Nat)
      (eps : transportEndpoints),
      alookup d.protocol ⟨np, proto⟩ = some eps →
      alookup eps.endpoints id = none →
      (d.singleRegisterEndpoint np proto id t rp nic seed).1 = none ∧
      (∃ eps2,
        alookup ((d.singleRegisterEndpoint np proto id t rp nic seed).2.unregisterEndpoint
            [np] proto id t nic).protocol ⟨np, proto⟩ = some eps2 ∧
        alookup eps2.endpoints id = none) ∧
      (((d.singleRegisterEndpoint np proto id t rp nic seed).2.unregisterEndpoint
          [np] proto id t nic).singleRegisterEndpoint np proto id t2 false nic
          seed2).1 = none) :=
  ⟨fun d np proto id t rp nic seed hwf =>
      singleRegister_preserves_WF d np proto id t rp nic seed hwf,
   fun d netProtos proto id t nic hwf =>
      unregister_preserves_WF netProtos d proto id t nic hwf,
   fun d np proto id t t2 rp nic seed seed2 eps heps hid =>
      cleanup_scenario d np proto id t t2 rp nic seed seed2 eps heps hid⟩

/-- Witness for C9: on a concrete demuxer, a registration and an
unregistration both preserve the invariant, and the concrete cleanup
round-trip (register endpoint 5 on a fresh id, unregister it, re-register
endpoint 6 with reuse disabled) succeeds at both ends. -/
theorem registry_invariant_and_cleanup_witness :
    demuxWF (rollbackDemo.singleRegisterEndpoint 1 17 rollbackId 5 true 0 9).2 ∧
    demuxWF (rollbackDemo.unregisterEndpoint [2] 17 rollbackId 7 0) ∧
    (rollbackDemo.singleRegisterEndpoint 1 17 rollbackId 5 true 0 9).1 = none ∧
    (((rollbackDemo.singleRegisterEndpoint 1 17 rollbackId 5 true 0
          9).2.unregisterEndpoint [1] 17 rollbackId 5 0).singleRegisterEndpoint 1 17
        rollbackId 6 false 0 11).1 = none := by
  have h := registry_invariant_and_cleanup
  refine ⟨h.1 rollbackDemo 1 17 rollbackId 5 true 0 9
      (by unfold demuxWF registryWF; decide),
    h.2.1 rollbackDemo [2] 17 rollbackId 7 0 (by unfold demuxWF registryWF; decide),
    ?_, ?_⟩
  · exact (h.2.2 rollbackDemo 1 17 rollbackId 5 6 true 0 9 11 ⟨[]⟩ (by decide)
      (by decide)).1
  · exact (h.2.2 rollbackDemo 1 17 rollbackId 5 6 true 0 9 11 ⟨[]⟩ (by decide)
      (by decide)).2.2

/-- Counterexample for C1: the claim that multicast fan-out selects exactly
one endpoint per matched group via hash selection is false. A UDP
registration of a two-member reuse group on 224.0.0.1:53 matches a
multicast-destined inbound id as the only matched group, yet
`deliverPacket` delivers the packet to both members of that one group
(through `handlePacketAll`), not to one hash-selected member. -/
theorem udp_multicast_one_per_group_counterexample :
    (findAllEndpointsLocked
        (transportEndpoints.mk
          [(⟨53, [224, 0, 0, 1], 0, []⟩, ⟨[(0, ⟨1, 17, [4, 9], true⟩)], 7⟩)])
        ⟨53, [224, 0, 0, 1], 99, [10, 0, 0, 9]⟩).length = 1 ∧
    (transportDemuxer.mk
          [(⟨1, 17⟩,
            ⟨[(⟨53, [224, 0, 0, 1], 0, []⟩, ⟨[(0, ⟨1, 17, [4, 9], true⟩)], 7⟩)]⟩)]
          []).deliverPacket ⟨[224, 0, 0, 1], [10, 0, 0, 9], 1, 5⟩ 17 0
        ⟨53, [224, 0, 0, 1], 99, [10, 0, 0, 9]⟩ ⟨0, 0⟩ =
      ⟨true,
       [⟨4, ⟨53, [224, 0, 0, 1], 99, [10, 0, 0, 9]⟩, 1, false⟩,
        ⟨9, ⟨53, [224, 0, 0, 1], 99, [10, 0, 0, 9]⟩, 0, false⟩],
       ⟨0, 0⟩⟩ := by
  constructor
  · decide
  · decide

/-- Claim C1 (amended): for a UDP packet whose `id.localAddress` is
multicast or broadcast, `deliverPacket` calls `findAllMatches`; if no group
matched it increments the UDP unknown-port counter and returns false;
otherwise it resolves each matched group against the receiving NIC (falling
back to NIC 0, silently skipping groups that resolve to neither) and
delivers the packet to every member of every resolved group — not to one
hash-selected member per group — handing clones (never the original) to
every delivery except the final one, whose delivery carries the original
buffer whenever the last matched group resolves to a non-empty member set;
it returns true whenever at least one group matched, and leaves the
counters untouched in that case. -/
theorem udp_multicast_fanout (d : transportDemuxer) (r : Route) (pkt : Nat)
    (id : TransportEndpointID) (stats : Stats) (eps : transportEndpoints)
    (heps : alookup d.protocol ⟨r.netProto, UDPProtocolNumber⟩ = some eps)
    (hmc : isMulticastOrBroadcast id.localAddress = true) :
    (findAllEndpointsLocked eps id = [] →
      d.deliverPacket r UDPProtocolNumber pkt id stats =
        ⟨false, [],
         { stats with udpUnknownPortErrors := stats.udpUnknownPortErrors + 1 }⟩) ∧
    (findAllEndpointsLocked eps id ≠ [] →
      (d.deliverPacket r UDPProtocolNumber pkt id stats).handled = true ∧
      (d.deliverPacket r UDPProtocolNumber pkt id stats).stats = stats ∧
      (d.deliverPacket r UDPProtocolNumber pkt id stats).deliveries.map
          (fun dl => dl.ep) =
        concatMap
          (fun e =>
            match resolveMpep e r.nic with
            | some mp => mp.endpoints
            | none => [])
          (findAllEndpointsLocked eps id) ∧
      (∀ dl ∈ (d.deliverPacket r UDPProtocolNumber pkt id stats).deliveries, dl.id = id) ∧
      (∀ dl ∈ (d.deliverPacket r UDPProtocolNumber pkt id stats).deliveries.dropLast,
        pkt < dl.pkt) ∧
      (∀ gl mp, (findAllEndpointsLocked eps id).getLast? = some gl →
        resolveMpep gl r.nic = some mp → mp.endpoints ≠ [] →
        (d.deliverPacket r UDPProtocolNumber pkt id stats).deliveries.getLast?.map
          (fun dl => dl.pkt) = some pkt)) := by
  constructor
  · intro hempty
    exact deliverPacket_mc_empty d r pkt id stats eps heps hmc hempty
  · intro hne
    have hH := deliverPacket_mc_handled d r pkt id stats eps heps hmc hne
    have hS := deliverPacket_mc_stats d r pkt id stats eps heps hmc hne
    have hD := deliverPacket_mc_deliveries d r pkt id stats eps heps hmc hne
    set dest := findAllEndpointsLocked eps id with hdest
    set A := concatMap (fun e => e.handlePacket d.queuedProtocols r id (pkt + 1))
      dest.dropLast with hA
    set B := (dest.getLast hne).handlePacket d.queuedProtocols r id pkt with hB
    have hsplit : dest.dropLast ++ [dest.getLast hne] = dest :=
      List.dropLast_append_getLast hne
    have hlast : dest.getLast? = some (dest.getLast hne) :=
      List.getLast?_eq_getLast dest hne
    have hmemA : ∀ dl' ∈ A, pkt < dl'.pkt := by
      intro dl' hdl'
      rw [hA, mem_concatMap] at hdl'
      obtain ⟨e, -, hdl'⟩ := hdl'
      rcases (handlePacket_mem e d.queuedProtocols r id (pkt + 1) dl' hdl').1 with
        h1 | h1 <;> omega
    refine ⟨hH, hS, ?_, ?_, ?_, ?_⟩
    · -- the delivered endpoints are exactly the members of the resolved groups
      rw [hD, List.map_append, map_concatMap]
      conv_rhs => rw [← hsplit, concatMap_append]
      congr 1
      · exact congrArg (fun f => concatMap f dest.dropLast)
          (funext fun e => handlePacket_mc_map_ep e d.queuedProtocols r id (pkt + 1) hmc)
      · rw [hB, handlePacket_mc_map_ep _ d.queuedProtocols r id pkt hmc]
        simp [concatMap]
    · -- every delivery is for the inbound id
      intro dl hdl
      rw [hD, List.mem_append] at hdl
      rcases hdl with hdl | hdl
      · rw [hA, mem_concatMap] at hdl
        obtain ⟨e, -, hdl⟩ := hdl
        exact (handlePacket_mem e d.queuedProtocols r id (pkt + 1) dl hdl).2
      · rw [hB] at hdl
        exact (handlePacket_mem _ d.queuedProtocols r id pkt dl hdl).2
    · -- every delivery except the final one carries a clone
      intro dl hdl
      rw [hD] at hdl
      by_cases hBnil : B = []
      · rw [hBnil, List.append_nil] at hdl
        exact hmemA dl (List.dropLast_subset _ hdl)
      · rw [List.dropLast_append_of_ne_nil _ hBnil, List.mem_append] at hdl
        rcases hdl with hdl | hdl
        · exact hmemA dl hdl
        · rw [hB] at hdl
          have := handlePacket_mc_dropLast_pkt _ d.queuedProtocols r id pkt dl hmc hdl
          omega
    · -- the final delivery carries the original buffer
      intro gl mp hgl hres hnemp
      rw [hlast] at hgl
      have hglast : gl = dest.getLast hne := (Option.some.inj hgl).symm
      subst hglast
      have hBne : B ≠ [] := by
        rw [hB]
        exact handlePacket_mc_ne_nil _ d.queuedProtocols r id pkt mp hmc hres hnemp
      rw [hD, List.getLast?_append]
      cases hB2 : B.getLast? with
      | none => exact absurd (List.getLast?_eq_none_iff.mp hB2) hBne
      | some x =>
        have h1 : B.getLast?.map (fun dl => dl.pkt) = some pkt := by
          rw [hB]
          exact handlePacket_mc_getLast_pkt (dest.getLast hne) d.queuedProtocols r id
            pkt mp hmc hres hnemp
        rw [hB2] at h1
        simpa [Option.or] using h1

/-- Witness for C1 (amended): a concrete multicast delivery against a
registry holding one wildcard-remote group whose set has members 4 and 9;
both members receive the packet, member 4 a clone and member 9 (the final
delivery) the original buffer, and the counters are untouched. -/
theorem udp_multicast_fanout_witness :
    ((transportDemuxer.mk
            [(⟨1, 17⟩,
              ⟨[(⟨53, [224, 0, 0, 1], 0, []⟩, ⟨[(0, ⟨1, 17, [4, 9], true⟩)], 7⟩)]⟩)]
            []).deliverPacket ⟨[224, 0, 0, 1], [10, 0, 0, 9], 1, 5⟩ UDPProtocolNumber 0
          ⟨53, [224, 0, 0, 1], 99, [10, 0, 0, 9]⟩ ⟨0, 0⟩).handled = true ∧
    ((transportDemuxer.mk
            [(⟨1, 17⟩,
              ⟨[(⟨53, [224, 0, 0, 1], 0, []⟩, ⟨[(0, ⟨1, 17, [4, 9], true⟩)], 7⟩)]⟩)]
            []).deliverPacket ⟨[224, 0, 0, 1], [10, 0, 0, 9], 1, 5⟩ UDPProtocolNumber 0
          ⟨53, [224, 0, 0, 1], 99, [10, 0, 0, 9]⟩ ⟨0, 0⟩).deliveries.map
        (fun dl => dl.ep) = [4, 9] ∧
    ((transportDemuxer.mk
            [(⟨1, 17⟩,
              ⟨[(⟨53, [224, 0, 0, 1], 0, []⟩, ⟨[(0, ⟨1, 17, [4, 9], true⟩)], 7⟩)]⟩)]
            []).deliverPacket ⟨[224, 0, 0, 1], [10, 0, 0, 9], 1, 5⟩ UDPProtocolNumber 0
          ⟨53, [224, 0, 0, 1], 99, [10, 0, 0, 9]⟩ ⟨0, 0⟩).deliveries.getLast?.map
        (fun dl => dl.pkt) = some 0 := by
  have h := udp_multicast_fanout
    (transportDemuxer.mk
      [(⟨1, 17⟩,
        ⟨[(⟨53, [224, 0, 0, 1], 0, []⟩, ⟨[(0, ⟨1, 17, [4, 9], true⟩)], 7⟩)]⟩)]
      [])
    ⟨[224, 0, 0, 1], [10, 0, 0, 9], 1, 5⟩ 0
    ⟨53, [224, 0, 0, 1], 99, [10, 0, 0, 9]⟩ ⟨0, 0⟩
    ⟨[(⟨53, [224, 0, 0, 1], 0, []⟩, ⟨[(0, ⟨1, 17, [4, 9], true⟩)], 7⟩)]⟩
    (by decide) (by decide)
  have h2 := h.2 (by decide)
  refine ⟨h2.1, ?_, ?_⟩
  · rw [h2.2.2.1]
    decide
  · exact h2.2.2.2.2.2 ⟨[(0, ⟨1, 17, [4, 9], true⟩)], 7⟩ ⟨1, 17, [4, 9], true⟩
      (by decide) (by decide) (by decide)

/-- Claim C10: for an inbound id that already carries a wildcard field, two
of the four probe tiers compute the identical registry key, so
`findAllMatches` returns the group registered under that key twice — when
`id.localAddress` is empty, tiers 1 and 2 coincide; when `id.remoteAddress`
is empty and `id.remotePort` is zero, tiers 1 and 3 coincide — and
multicast/broadcast fan-out consequently delivers two copies of the same
packet (one clone and the original) to that group. -/
theorem wildcard_id_duplicate_tiers :
    (∀ (eps : transportEndpoints) (id : TransportEndpointID) (g : endpointsByNic),
      id.localAddress = [] → alookup eps.endpoints id = some g →
      2 ≤ (findAllEndpointsLocked eps id).count g) ∧
    (∀ (eps : transportEndpoints) (id : TransportEndpointID) (g : endpointsByNic),
      id.remoteAddress = [] → id.remotePort = 0 → alookup eps.endpoints id = some g →
      2 ≤ (findAllEndpointsLocked eps id).count g) ∧
    (∀ (d : transportDemuxer) (r : Route) (pkt : Nat) (id : TransportEndpointID)
      (stats : Stats) (eps : transportEndpoints) (g : endpointsByNic)
      (mp : multiPortEndpoint) (t : Nat),
      alookup d.protocol ⟨r.netProto, UDPProtocolNumber⟩ = some eps →
      isMulticastOrBroadcast id.localAddress = true →
      id.remoteAddress = [] → id.remotePort = 0 →
      alookup eps.endpoints id = some g →
      alookup eps.endpoints { id with localAddress := [] } = none →
      resolveMpep g r.nic = some mp →
      mp.endpoints = [t] →
      (d.deliverPacket r UDPProtocolNumber pkt id stats).deliveries =
        [⟨t, id, pkt + 1, d.queuedProtocols.contains ⟨mp.netProto, mp.transProto⟩⟩,
         ⟨t, id, pkt, d.queuedProtocols.contains ⟨mp.netProto, mp.transProto⟩⟩]) := by
  refine ⟨?_, ?_, ?_⟩
  · intro eps id g hla hg
    have hid2 : ({ id with localAddress := [] } : TransportEndpointID) = id := by
      cases id
      simp_all
    have hid4 : ({ id with localAddress := [], remoteAddress := [], remotePort := 0 } :
        TransportEndpointID) = { id with remoteAddress := [], remotePort := 0 } := by
      cases id
      simp_all
    unfold findAllEndpointsLocked tierKeys
    rw [hid2, hid4]
    cases hx : alookup eps.endpoints { id with remoteAddress := [], remotePort := 0 } with
    | none =>
      simp [List.filterMap_cons, hg, hx, List.count_cons]
    | some h' =>
      by_cases hgh : h' = g
      · subst hgh
        simp [List.filterMap_cons, hg, hx, List.count_cons]
      · simp [List.filterMap_cons, hg, hx, List.count_cons, hgh]
  · intro eps id g hra Hrp hg
    have hid3 : ({ id with remoteAddress := [], remotePort := 0 } :
        TransportEndpointID) = id := by
      cases id
      simp_all
    have hid4 : ({ id with localAddress := [], remoteAddress := [], remotePort := 0 } :
        TransportEndpointID) = { id with localAddress := [] } := by
      cases id
      simp_all
    unfold findAllEndpointsLocked tierKeys
    rw [hid3, hid4]
    cases hx : alookup eps.endpoints { id with localAddress := [] } with
    | none =>
      simp [List.filterMap_cons, hg, hx, List.count_cons]
    | some h' =>
      by_cases hgh : h' = g
      · subst hgh
        simp [List.filterMap_cons, hg, hx, List.count_cons]
      · simp [List.filterMap_cons, hg, hx, List.count_cons, hgh]
  · intro d r pkt id stats eps g mp t heps hmc hra Hrp hg hnone hres hmem
    have hid3 : ({ id with remoteAddress := [], remotePort := 0 } :
        TransportEndpointID) = id := by
      cases id
      simp_all
    have hid4 : ({ id with localAddress := [], remoteAddress := [], remotePort := 0 } :
        TransportEndpointID) = { id with localAddress := [] } := by
      cases id
      simp_all
    have hdest : findAllEndpointsLocked eps id = [g, g] := by
      unfold findAllEndpointsLocked tierKeys
      rw [hid3, hid4]
      simp [List.filterMap_cons, hg, hnone]
    have hne : findAllEndpointsLocked eps id ≠ [] := by
      rw [hdest]
      simp
    have hhp : ∀ p, g.handlePacket d.queuedProtocols r id p =
        [⟨t, id, p, d.queuedProtocols.contains ⟨mp.netProto, mp.transProto⟩⟩] := by
      intro p
      unfold endpointsByNic.handlePacket
      simp only [hres]
      rw [if_pos hmc]
      unfold multiPortEndpoint.handlePacketAll
      rw [hmem]
      simp
    have h1 : (findAllEndpointsLocked eps id).dropLast = [g] := by
      rw [hdest]
      rfl
    have h2 : (findAllEndpointsLocked eps id).getLast? = some g := by
      rw [hdest]
      rfl
    have h3 := List.getLast?_eq_getLast (findAllEndpointsLocked eps id) hne
    rw [h2] at h3
    have h4 : (findAllEndpointsLocked eps id).getLast hne = g := (Option.some.inj h3).symm
    rw [deliverPacket_mc_deliveries d r pkt id stats eps heps hmc hne, h1, h4]
    simp [concatMap, hhp]

/-- Claim C5: if the Demuxer's registerEndpoint fails on some protocol in
the list, every protocol already registered earlier in the same call is
unregistered before the error is returned: the per-protocol registration
count of the endpoint is restored exactly for every listed protocol, so no
partial multi-protocol registration is observable afterward; in particular
an endpoint that was not registered before the failed call is not
registered after it, for any protocol in the list. -/
theorem register_rollback_on_failure (d : transportDemuxer) (netProtos : List Nat)
    (proto : Nat) (id : TransportEndpointID) (t : Nat) (rp : Bool) (nic : NICID)
    (seed : Nat) (e : TcpipError) (d' : transportDemuxer)
    (hfail : d.registerEndpoint netProtos proto id t rp nic seed = (some e, d')) :
    (∀ m, epCount d' m proto id t nic = epCount d m proto id t nic) ∧
    (∀ m ∈ netProtos, epCount d m proto id t nic = 0 →
      epCount d' m proto id t nic = 0) := by
  have h := registerLoop_rollback netProtos [] d d proto id t rp nic seed e d'
    (fun m => by simp) hfail
  exact ⟨h, fun m hm h0 => by rw [h m, h0]⟩

/-- Witness for C5: a dual-protocol registration that succeeds on protocol
1 and collides (PortInUse) on protocol 2 returns the error with the state
rolled back to exactly the original demuxer, and the endpoint is registered
under neither protocol afterward. -/
theorem register_rollback_on_failure_witness :
    rollbackDemo.registerEndpoint [1, 2] 17 rollbackId 5 false 0 9 =
      (some .PortInUse, rollbackDemo) ∧
    epCount rollbackDemo 1 17 rollbackId 5 0 = 0 ∧
    epCount rollbackDemo 2 17 rollbackId 5 0 = 0 := by
  have hfail : rollbackDemo.registerEndpoint [1, 2] 17 rollbackId 5 false 0 9 =
      (some .PortInUse, rollbackDemo) := by
    simp [rollbackDemo, rollbackId, transportDemuxer.registerEndpoint,
      transportDemuxer.registerEndpointLoop, transportDemuxer.singleRegisterEndpoint,
      endpointsByNic.registerEndpoint, multiPortEndpoint.singleRegisterEndpoint,
      transportDemuxer.unregisterEndpoint, transportEndpoints.unregisterEndpoint,
      endpointsByNic.unregisterEndpoint, multiPortEndpoint.unregisterEndpoint,
      alookup, ainsert, aremove, heapPush, heapUp, lswap, lget, heapRemove,
      List.findIdx?_cons]
  have h := (register_rollback_on_failure rollbackDemo [1, 2] 17 rollbackId 5 false 0 9
    .PortInUse rollbackDemo hfail).2
  exact ⟨hfail, h 1 (by decide) (by decide), h 2 (by decide) (by decide)⟩

/-- Witness for C10: a UDP listener bound to multicast 224.0.0.1:53 with a
wildcard remote part (the registered key equals both tier 1 and tier 3 of
the inbound id) receives the same multicast packet twice: its single member
8 gets a clone and then the original buffer. -/
theorem wildcard_id_duplicate_tiers_witness :
    ((transportDemuxer.mk
          [(⟨1, 17⟩, ⟨[(⟨53, [224, 0, 0, 1], 0, []⟩, ⟨[(0, ⟨1, 17, [8], true⟩)], 7⟩)]⟩)]
          []).deliverPacket ⟨[224, 0, 0, 1], [10, 0, 0, 9], 1, 0⟩ UDPProtocolNumber 0
        ⟨53, [224, 0, 0, 1], 0, []⟩ ⟨0, 0⟩).deliveries =
      [⟨8, ⟨53, [224, 0, 0, 1], 0, []⟩, 1, false⟩,
       ⟨8, ⟨53, [224, 0, 0, 1], 0, []⟩, 0, false⟩] := by
  have h := wildcard_id_duplicate_tiers.2.2
    (transportDemuxer.mk
      [(⟨1, 17⟩, ⟨[(⟨53, [224, 0, 0, 1], 0, []⟩, ⟨[(0, ⟨1, 17, [8], true⟩)], 7⟩)]⟩)] [])
    ⟨[224, 0, 0, 1], [10, 0, 0, 9], 1, 0⟩ 0 ⟨53, [224, 0, 0, 1], 0, []⟩ ⟨0, 0⟩
    ⟨[(⟨53, [224, 0, 0, 1], 0, []⟩, ⟨[(0, ⟨1, 17, [8], true⟩)], 7⟩)]⟩
    ⟨[(0, ⟨1, 17, [8], true⟩)], 7⟩ ⟨1, 17, [8], true⟩ 8
    (by decide) (by decide) (by decide) (by decide) (by decide) (by decide) (by decide)
    (by decide)
  exact h

end GvisorDemux
